import Mathlib

/-!
Shallow embedding of `src/conference-central/conference.py` (module
`ConferenceApi`), a Google App Engine conference backend, together with
proofs about the claims of its specification.

Modelling conventions:
* ndb entities become Lean structures; the datastore becomes explicit
  association lists (`Profile` keyed by `userId`, `Conference` keyed by its
  websafe key string).
* protorpc message fields (which are `None` when unset) become `Option`
  types; repeated fields become lists (empty when unset).
* python exceptions become an `ApiError` value carried in `Except`; the
  `@ndb.transactional` decorator means that an operation which raises
  leaves the datastore unchanged, so state-level operations return
  `Except ApiError σ` and an error carries no new state.
* `datetime.strptime(s, "%Y-%m-%d")` is modelled after CPython's
  `_strptime`: `%Y` matches exactly four digits, `%m` matches the regex
  `1[0-2]|0[1-9]|[1-9]`, `%d` matches `3[01]|[12]\d|0[1-9]|[1-9]`, the
  whole string must be consumed, and `datetime.date` then validates the
  day against the month length (leap years included) and requires
  `year >= 1`.
* python `int(string)` strips surrounding whitespace and accepts an
  optional sign followed by one or more decimal digits.
-/

namespace ConferenceCentral

/-- Calendar date as produced by `datetime.strptime(...).date()`. -/
structure Date where
  year : Nat
  month : Nat
  day : Nat
deriving Repr, DecidableEq

/-- Entity `Profile` from models.py, as used by conference.py. -/
structure Profile where
  userId : String
  displayName : String
  mainEmail : String
  teeShirtSize : String
  conferenceKeysToAttend : List String
deriving Repr, DecidableEq

/-- Entity `Conference` from models.py, as used by conference.py. -/
structure Conference where
  name : String
  description : Option String
  organizerUserId : String
  topics : List String
  city : String
  startDate : Option Date
  endDate : Option Date
  month : Nat
  maxAttendees : Int
  seatsAvailable : Int
deriving Repr, DecidableEq

/-- Modelled from the spec: the identity resolver
(`endpoints.get_current_user()` together with `utils.get_user_id`, both
outside src/) provides a stable user id, a display name (`nickname()`) and
an email for the authenticated caller. -/
structure User where
  userId : String
  nickname : String
  email : String
deriving Repr, DecidableEq

/-- Inbound/outbound `ConferenceForm` message: every field is optional
(protorpc fields are `None` when unset, repeated fields default to `[]`). -/
structure ConferenceForm where
  name : Option String
  description : Option String
  organizerUserId : Option String
  topics : List String
  city : Option String
  startDate : Option String
  endDate : Option String
  month : Option Int
  maxAttendees : Option Int
  seatsAvailable : Option Int
  websafeKey : Option String
  organizerDisplayName : Option String
deriving Repr, DecidableEq

/-- `ProfileMiniForm`: the two user-modifiable profile fields. -/
structure ProfileMiniForm where
  displayName : Option String
  teeShirtSize : Option String
deriving Repr, DecidableEq

/-- A raw filter clause of `ConferenceQueryForm`. -/
structure ConferenceQueryForm where
  field : String
  operator : String
  value : String
deriving Repr, DecidableEq

/-- A validated/normalized clause as built by `_format_filters`
(store property name, store operator, still-raw string value). -/
structure Filtr where
  field : String
  operator : String
  value : String
deriving Repr, DecidableEq

/-- Value of a query filter after the numeric coercion in `_get_query`. -/
inductive FilterValue where
  | strVal (v : String)
  | intVal (v : Int)
deriving Repr, DecidableEq

/-- `ndb.query.FilterNode(field, operator, value)`. -/
structure FilterNode where
  field : String
  operator : String
  value : FilterValue
deriving Repr, DecidableEq

/-- Python exceptions raised by conference.py. The spec's error taxonomy
maps onto these as: Unauthenticated = `unauthorized`, NotFound =
`notFound`, NotOwner = `forbidden`, MissingRequiredField /
InvalidFilterField / InvalidFilterOperator / MultipleInequalityFields =
`badRequest` with the corresponding message, AlreadyRegistered /
NoSeatsAvailable = `conflict` with the corresponding message, and
InvalidDate / InvalidFilterValue = `valueError` (the code lets Python's
`ValueError` from `strptime` / `int` escape uncaught). `nameError` models
a Python `NameError` from evaluating an undefined global name. -/
inductive ApiError where
  | unauthorized (msg : String)
  | notFound (msg : String)
  | badRequest (msg : String)
  | forbidden (msg : String)
  | conflict (msg : String)
  | valueError
  | nameError (name : String)
deriving Repr, DecidableEq

/-- The datastore: profiles keyed by `userId`, conferences keyed by their
websafe key string. -/
structure DState where
  profiles : List Profile
  conferences : List (String × Conference)
deriving Repr, DecidableEq

instance {ε α : Type} [DecidableEq ε] [DecidableEq α] :
    DecidableEq (Except ε α) := fun a b =>
  match a, b with
  | Except.ok x, Except.ok y =>
    if h : x = y then isTrue (by rw [h])
    else isFalse (by intro hh; cases hh; exact h rfl)
  | Except.error x, Except.error y =>
    if h : x = y then isTrue (by rw [h])
    else isFalse (by intro hh; cases hh; exact h rfl)
  | Except.ok _, Except.error _ => isFalse (fun hh => Except.noConfusion hh)
  | Except.error _, Except.ok _ => isFalse (fun hh => Except.noConfusion hh)

/-- The empty datastore. -/
def emptyState : DState := { profiles := [], conferences := [] }

/-- Python dict lookup on a literal string-to-string table. -/
def dictGet : List (String × String) → String → Option String
  | [], _ => none
  | (k, v) :: rest, a => if a = k then some v else dictGet rest a

/-- The `OPERATORS` table of conference.py. -/
def OPERATORS : List (String × String) :=
  [("EQ", "="), ("GT", ">"), ("GTEQ", ">="), ("LT", "<"), ("LTEQ", "<="),
   ("NE", "!=")]

/-- The `FIELDS` table of conference.py. -/
def FIELDS : List (String × String) :=
  [("CITY", "city"), ("TOPIC", "topics"), ("MONTH", "month"),
   ("MAX_ATTENDEES", "maxAttendees")]

/-- Python truthiness of an optional string (`None` and `""` are falsy). -/
def strTruthy : Option String → Bool
  | none => false
  | some s => decide (s ≠ "")

/-- Value of a decimal digit character. -/
def digitVal (c : Char) : Nat := c.toNat - 48

/-- CPython `_strptime` regex for `%Y`: exactly four decimal digits. -/
def parseYear4 : List Char → Option (Nat × List Char)
  | a :: b :: c :: d :: rest =>
    if a.isDigit ∧ b.isDigit ∧ c.isDigit ∧ d.isDigit then
      some (((digitVal a * 10 + digitVal b) * 10 + digitVal c) * 10 + digitVal d, rest)
    else none
  | _ => none

/-- CPython `_strptime` regex for `%m`: `1[0-2]|0[1-9]|[1-9]`, with the
regex backtracking of ordered alternation. -/
def parseMonthRe : List Char → Option (Nat × List Char)
  | [] => none
  | c :: rest =>
    if c = '1' then
      match rest with
      | c2 :: rest2 =>
        if '0' ≤ c2 ∧ c2 ≤ '2' then some (10 + digitVal c2, rest2)
        else some (1, rest)
      | [] => some (1, [])
    else if c = '0' then
      match rest with
      | c2 :: rest2 =>
        if '1' ≤ c2 ∧ c2 ≤ '9' then some (digitVal c2, rest2) else none
      | [] => none
    else if '2' ≤ c ∧ c ≤ '9' then some (digitVal c, rest)
    else none

/-- CPython `_strptime` regex for `%d`: `3[01]|[12]\d|0[1-9]|[1-9]`, with
the regex backtracking of ordered alternation. -/
def parseDayRe : List Char → Option (Nat × List Char)
  | [] => none
  | c :: rest =>
    if c = '3' then
      match rest with
      | c2 :: rest2 =>
        if c2 = '0' ∨ c2 = '1' then some (30 + digitVal c2, rest2)
        else some (3, rest)
      | [] => some (3, [])
    else if c = '1' ∨ c = '2' then
      match rest with
      | c2 :: rest2 =>
        if c2.isDigit then some (digitVal c * 10 + digitVal c2, rest2)
        else some (digitVal c, rest)
      | [] => some (digitVal c, [])
    else if c = '0' then
      match rest with
      | c2 :: rest2 =>
        if '1' ≤ c2 ∧ c2 ≤ '9' then some (digitVal c2, rest2) else none
      | [] => none
    else if '4' ≤ c ∧ c ≤ '9' then some (digitVal c, rest)
    else none

/-- Length in days of a month, as validated by `datetime.date`. -/
def daysInMonth (y m : Nat) : Nat :=
  if m = 2 then
    if y % 4 = 0 ∧ (y % 100 ≠ 0 ∨ y % 400 = 0) then 29 else 28
  else if m = 4 ∨ m = 6 ∨ m = 9 ∨ m = 11 then 30
  else 31

/-- `datetime.strptime(s, "%Y-%m-%d").date()`: `none` when Python would
raise `ValueError` (regex mismatch, unconverted data remaining, or an
invalid calendar date). -/
def strptimeDate (s : String) : Option Date :=
  match parseYear4 s.data with
  | none => none
  | some (y, r1) =>
    match r1 with
    | '-' :: r2 =>
      match parseMonthRe r2 with
      | none => none
      | some (m, r3) =>
        match r3 with
        | '-' :: r4 =>
          match parseDayRe r4 with
          | none => none
          | some (d, r5) =>
            if r5 = [] ∧ 1 ≤ y ∧ d ≤ daysInMonth y m then
              some { year := y, month := m, day := d }
            else none
        | _ => none
    | _ => none

/-- Python slice `s[:n]`. -/
def pyTake (n : Nat) (s : String) : String := String.mk (s.data.take n)

/-- Whitespace stripped by Python's `int(string)`. -/
def isSpaceChar (c : Char) : Bool :=
  c = ' ' ∨ c = '\t' ∨ c = '\n' ∨ c = '\r'

/-- Digit run accepted by `int(string)` after the optional sign. -/
def natDigits (cs : List Char) : Option Nat :=
  if cs ≠ [] ∧ cs.all Char.isDigit then
    some (cs.foldl (fun acc c => acc * 10 + digitVal c) 0)
  else none

/-- Python `int(string)`: `none` when Python would raise `ValueError`. -/
def pyInt (s : String) : Option Int :=
  let cs := s.data.dropWhile isSpaceChar
  let cs := (cs.reverse.dropWhile isSpaceChar).reverse
  match cs with
  | '+' :: rest => (natDigits rest).map (fun n => (n : Int))
  | '-' :: rest => (natDigits rest).map (fun n => -(n : Int))
  | _ => (natDigits cs).map (fun n => (n : Int))

/-- Lookup in the profile table (`ndb.Key(Profile, user_id).get()`). -/
def findProfile : List Profile → String → Option Profile
  | [], _ => none
  | p :: rest, uid => if p.userId = uid then some p else findProfile rest uid

/-- `profile.put()`: replace the record with the same `userId`, or append
a new one. -/
def putProfile : List Profile → Profile → List Profile
  | [], p => [p]
  | q :: rest, p =>
    if q.userId = p.userId then p :: rest else q :: putProfile rest p

/-- Lookup in the conference table (`ndb.Key(urlsafe=wsck).get()`). -/
def confLookup : List (String × Conference) → String → Option Conference
  | [], _ => none
  | (k0, c0) :: rest, k => if k = k0 then some c0 else confLookup rest k

/-- `conf.put()`: replace the record with the same key, or append. -/
def putConference : List (String × Conference) → String → Conference →
    List (String × Conference)
  | [], k, c => [(k, c)]
  | (k0, c0) :: rest, k, c =>
    if k0 = k then (k, c) :: rest else (k0, c0) :: putConference rest k c

/-- The default profile lazily created by `_get_profile_from_user` for a
first-time caller: identity-derived fields, default tee-shirt size, empty
registration list. -/
def freshProfile (u : User) : Profile :=
  { userId := u.userId, displayName := u.nickname, mainEmail := u.email,
    teeShirtSize := "NOT_SPECIFIED", conferenceKeysToAttend := [] }

/-- `_get_profile_from_user` (lines 271-296): authenticate, fetch the
caller's profile, lazily creating (and putting) a default one. Returns
the profile and the possibly-extended store. -/
def getProfileFromUser (s : DState) (u : Option User) :
    Except ApiError (Profile × DState) :=
  match u with
  | none => Except.error (ApiError.unauthorized ("Authorization required"))
  | some user =>
    match findProfile s.profiles user.userId with
    | some p => Except.ok (p, s)
    | none =>
      Except.ok (freshProfile user,
        { s with profiles := putProfile s.profiles (freshProfile user) })

/-- The field-update loop of `_do_profile` (lines 299-312): for each of
`displayName` and `teeShirtSize`, copy the request value onto the profile
when it is truthy. -/
def doProfileUpdate (prof : Profile) (req : ProfileMiniForm) : Profile :=
  let p1 :=
    match req.displayName with
    | some v => if v ≠ "" then { prof with displayName := v } else prof
    | none => prof
  match req.teeShirtSize with
  | some v => if v ≠ "" then { p1 with teeShirtSize := v } else p1
  | none => p1

/-- Parse one optional date-string field of `_create_conference_object`:
`datetime.strptime(data[...][:10], "%Y-%m-%d").date()` guarded by the
truthiness check; a falsy value stays absent. -/
def pyParseOptDate (v : Option String) : Except ApiError (Option Date) :=
  match v with
  | none => Except.ok none
  | some s =>
    if s = "" then Except.ok none
    else
      match strptimeDate (pyTake 10 s) with
      | none => Except.error ApiError.valueError
      | some d => Except.ok (some d)

/-- `_create_conference_object` (lines 318-378), up to the `put`: auth
check, required `name`, defaults for `city` / `maxAttendees` /
`seatsAvailable` / `topics` (`DEFAULTS`, applied when the field is `None`
or `[]`), date parsing with `month` derived from `startDate` (0 when
absent), and `seatsAvailable := maxAttendees` when `maxAttendees > 0`.
Returns the `Conference` record that is put (keyed by the allocated key,
handled by `createConferenceState`). -/
def createConferenceObject (user : Option User) (request : ConferenceForm) :
    Except ApiError Conference :=
  match user with
  | none => Except.error (ApiError.unauthorized ("Authorization required"))
  | some u =>
    if strTruthy request.name = false then
      Except.error (ApiError.badRequest ("Conference 'name' field required"))
    else
      let cityD := match request.city with
        | none => "Default City"
        | some c => c
      let maxD : Int := match request.maxAttendees with
        | none => 0
        | some m => m
      let seatsD : Int := match request.seatsAvailable with
        | none => 0
        | some v => v
      let topicsD := if request.topics = [] then ["Default", "Topic"]
        else request.topics
      match pyParseOptDate request.startDate with
      | Except.error e => Except.error e
      | Except.ok startD =>
        match pyParseOptDate request.endDate with
        | Except.error e => Except.error e
        | Except.ok endD =>
          let monthD : Nat := match startD with
            | some d => d.month
            | none => 0
          let seatsFinal : Int := if maxD > 0 then maxD else seatsD
          Except.ok
            { name := (request.name).getD "",
              description := request.description,
              organizerUserId := u.userId,
              topics := topicsD,
              city := cityD,
              startDate := startD,
              endDate := endD,
              month := monthD,
              maxAttendees := maxD,
              seatsAvailable := seatsFinal }

/-- State-level `createConference`: build the record and put it under the
freshly allocated key `key`. -/
def createConferenceState (s : DState) (u : Option User)
    (req : ConferenceForm) (key : String) : Except ApiError DState :=
  match createConferenceObject u req with
  | Except.error e => Except.error e
  | Except.ok conf =>
    Except.ok { s with conferences := s.conferences ++ [(key, conf)] }

/-- `_update_conference_object` (lines 434-474). After the auth check the
body evaluates `user_id = _getUserId()` (line 439); the module defines no
global `_getUserId` (the helper imported from utils is named
`get_user_id`), so every authenticated call raises `NameError` before the
conference is fetched, before the ownership check, and before any
mutation; the transaction decorator then rolls back. Lines 440-474 are
unreachable. -/
def updateConferenceObject (user : Option User) (_request : ConferenceForm)
    (_wsck : String) (_s : DState) : Except ApiError DState :=
  match user with
  | none => Except.error (ApiError.unauthorized ("Authorization required"))
  | some _u => Except.error (ApiError.nameError ("_getUserId"))

/-- The register/unregister transaction body of `_conference_registration`
(lines 492-519), after the profile fetch and conference lookup: returns
the updated profile, the updated conference and the boolean payload. -/
def conferenceRegistration (prof : Profile) (conf : Conference)
    (wsck : String) (reg : Bool) :
    Except ApiError (Profile × Conference × Bool) :=
  if reg then
    if wsck ∈ prof.conferenceKeysToAttend then
      Except.error
        (ApiError.conflict ("You have already registered for this conference"))
    else if conf.seatsAvailable ≤ 0 then
      Except.error (ApiError.conflict ("There are no seats available."))
    else
      Except.ok
        ({ prof with conferenceKeysToAttend :=
             prof.conferenceKeysToAttend ++ [wsck] },
         { conf with seatsAvailable := conf.seatsAvailable - 1 }, true)
  else
    if wsck ∈ prof.conferenceKeysToAttend then
      Except.ok
        ({ prof with conferenceKeysToAttend :=
             prof.conferenceKeysToAttend.erase wsck },
         { conf with seatsAvailable := conf.seatsAvailable + 1 }, true)
    else
      Except.ok (prof, conf, false)

/-- `_conference_registration` (lines 477-523) as a transactional state
transformer: profile fetch (with lazy creation), conference lookup,
transaction body, then `prof.put()` and `conf.put()`. An error means the
transaction aborted, leaving the store unchanged. -/
def conferenceRegistrationState (s : DState) (u : Option User)
    (wsck : String) (reg : Bool) : Except ApiError (DState × Bool) :=
  match getProfileFromUser s u with
  | Except.error e => Except.error e
  | Except.ok (prof, s1) =>
    match confLookup s1.conferences wsck with
    | none =>
      Except.error (ApiError.notFound ("No conference found with key: " ++ wsck))
    | some conf =>
      match conferenceRegistration prof conf wsck reg with
      | Except.error e => Except.error e
      | Except.ok (prof2, conf2, retval) =>
        Except.ok
          ({ profiles := putProfile s1.profiles prof2,
             conferences := putConference s1.conferences wsck conf2 }, retval)

/-- Error raised by `_format_filters` when a second inequality field
appears. The spec calls this `MultipleInequalityFields`. -/
def multipleIneqErr : ApiError :=
  ApiError.badRequest ("Inequality filter is allowed on only one field.")

/-- Error raised by `_format_filters` for an unknown field or operator
name. The spec calls this `InvalidFilterField` / `InvalidFilterOperator`
(the code uses one message for both). -/
def invalidFieldOpErr : ApiError :=
  ApiError.badRequest ("Filter contains invalid field or operator.")

/-- The loop of `_format_filters` (lines 402-431) with the running
`inequality_field` made explicit: map field and operator through the
whitelists, and reject an inequality clause whose field differs from a
previously fixed inequality field. -/
def formatFiltersFrom : List ConferenceQueryForm → Option String →
    Except ApiError (Option String × List Filtr)
  | [], ineq => Except.ok (ineq, [])
  | f :: rest, ineq =>
    match dictGet FIELDS f.field, dictGet OPERATORS f.operator with
    | some fld, some op =>
      if op ≠ "=" then
        match ineq with
        | some g =>
          if g ≠ fld then Except.error multipleIneqErr
          else
            match formatFiltersFrom rest (some fld) with
            | Except.ok (o, fs) =>
              Except.ok (o, { field := fld, operator := op, value := f.value } :: fs)
            | Except.error e => Except.error e
        | none =>
          match formatFiltersFrom rest (some fld) with
          | Except.ok (o, fs) =>
            Except.ok (o, { field := fld, operator := op, value := f.value } :: fs)
          | Except.error e => Except.error e
      else
        match formatFiltersFrom rest ineq with
        | Except.ok (o, fs) =>
          Except.ok (o, { field := fld, operator := op, value := f.value } :: fs)
        | Except.error e => Except.error e
    | _, _ => Except.error invalidFieldOpErr

/-- `_format_filters`: starts with no inequality field. -/
def formatFilters (filters : List ConferenceQueryForm) :
    Except ApiError (Option String × List Filtr) :=
  formatFiltersFrom filters none

/-- The filter loop of `_get_query` (lines 393-398): coerce values of the
numeric fields with `int(...)` and build the `FilterNode`s in order. -/
def coerceFilters : List Filtr → Except ApiError (List FilterNode)
  | [] => Except.ok []
  | f :: rest =>
    if f.field = "month" ∨ f.field = "maxAttendees" then
      match pyInt f.value with
      | none => Except.error ApiError.valueError
      | some n =>
        match coerceFilters rest with
        | Except.ok nodes =>
          Except.ok ({ field := f.field, operator := f.operator,
                       value := FilterValue.intVal n } :: nodes)
        | Except.error e => Except.error e
    else
      match coerceFilters rest with
      | Except.ok nodes =>
        Except.ok ({ field := f.field, operator := f.operator,
                     value := FilterValue.strVal f.value } :: nodes)
      | Except.error e => Except.error e

/-- `_get_query` (lines 381-399): run the filter compiler, fix the sort
order (`[inequality field, name]` when an inequality field was
identified, `[name]` otherwise), then apply the coerced filters. The
result abstracts the ndb query as (sort property list, filter nodes). -/
def getQuery (filters : List ConferenceQueryForm) :
    Except ApiError (List String × List FilterNode) :=
  match formatFilters filters with
  | Except.error e => Except.error e
  | Except.ok (ineq, fs) =>
    let sortOrder : List String :=
      match ineq with
      | none => ["name"]
      | some fld => [fld, "name"]
    match coerceFilters fs with
    | Except.error e => Except.error e
    | Except.ok nodes => Except.ok (sortOrder, nodes)

/-- Whether a whitelisted clause uses an inequality operator (every
mapped operator except `=`). -/
def isIneqB (f : ConferenceQueryForm) : Bool :=
  decide ((dictGet OPERATORS f.operator).getD "" ≠ "=")

/-- Mapped store property name of a clause. -/
def fieldOf (f : ConferenceQueryForm) : String :=
  (dictGet FIELDS f.field).getD ""

/-- Mapped fields of the inequality clauses, in input order. -/
def ineqFieldsOf (filters : List ConferenceQueryForm) : List String :=
  (filters.filter (fun f => isIneqB f)).map fieldOf

/-- All members of the list are equal. -/
def listConst (l : List String) : Prop := ∀ a ∈ l, ∀ b ∈ l, a = b

instance : DecidablePred listConst := fun l => by
  unfold listConst; infer_instance

/-- Number of profiles registered for a conference key. -/
def countRegistered (ps : List Profile) (k : String) : Nat :=
  ps.countP (fun p => decide (k ∈ p.conferenceKeysToAttend))

/-- The seat invariant of the spec: for every stored conference,
`seatsAvailable = maxAttendees - |registered profiles|` and
`0 ≤ seatsAvailable ≤ maxAttendees`. -/
def SeatInvariant (s : DState) : Prop :=
  ∀ kc ∈ s.conferences,
    (kc.2.seatsAvailable =
       kc.2.maxAttendees - (countRegistered s.profiles kc.1 : Int)) ∧
    0 ≤ kc.2.seatsAvailable ∧ kc.2.seatsAvailable ≤ kc.2.maxAttendees

instance : DecidablePred SeatInvariant := fun s => by
  unfold SeatInvariant; infer_instance

/-- Auxiliary datastore well-formedness used in the induction: conference
keys are distinct, profile ids are distinct, every profile's key list has
no duplicates and references only stored conferences, and the seat
invariant holds. -/
def GoodState (s : DState) : Prop :=
  (s.conferences.map Prod.fst).Nodup ∧
  (s.profiles.map Profile.userId).Nodup ∧
  (∀ p ∈ s.profiles, p.conferenceKeysToAttend.Nodup) ∧
  (∀ p ∈ s.profiles, ∀ k ∈ p.conferenceKeysToAttend,
      k ∈ s.conferences.map Prod.fst) ∧
  SeatInvariant s

/-- One public mutating call of the API, as observed on the datastore.
`P` restricts which `createConference` requests are allowed; key
allocation guarantees the new conference key is fresh. Calls that raise
leave the store unchanged (transaction rollback), so only completed calls
appear. -/
inductive Step (P : ConferenceForm → Prop) : DState → DState → Prop where
  | createC {s : DState} (u : User) (req : ConferenceForm) (key : String)
      {s' : DState} :
      P req → key ∉ s.conferences.map Prod.fst →
      createConferenceState s (some u) req key = Except.ok s' → Step P s s'
  | registerC {s : DState} (u : User) (wsck : String) {s' : DState} (b : Bool) :
      conferenceRegistrationState s (some u) wsck true = Except.ok (s', b) →
      Step P s s'
  | unregisterC {s : DState} (u : User) (wsck : String) {s' : DState} (b : Bool) :
      conferenceRegistrationState s (some u) wsck false = Except.ok (s', b) →
      Step P s s'
  | updateC {s : DState} (u : User) (req : ConferenceForm) (wsck : String)
      {s' : DState} :
      updateConferenceObject (some u) req wsck s = Except.ok s' → Step P s s'

/-- States reachable from the empty store by any sequence of the four
mutating calls. -/
def ReachableAny (s : DState) : Prop :=
  Relation.ReflTransGen (Step (fun _ => True)) emptyState s

/-- Restriction on `createConference` requests forced by the C1
counterexample: either a positive `maxAttendees` is supplied, or
`maxAttendees` defaults/evaluates to 0 and no nonzero `seatsAvailable`
is supplied. -/
def GoodCreateReq (req : ConferenceForm) : Prop :=
  0 < req.maxAttendees.getD 0 ∨
  (req.maxAttendees.getD 0 = 0 ∧ req.seatsAvailable.getD 0 = 0)

/-- States reachable from the empty store when every `createConference`
request satisfies `GoodCreateReq`. -/
def ReachableGood (s : DState) : Prop :=
  Relation.ReflTransGen (Step GoodCreateReq) emptyState s

/-- Seat-delta behaviour of the registration transaction body: a
successful registration decrements `seatsAvailable` by exactly 1 and
returns `true`; a successful unregistration increments it by exactly 1;
the idempotent unregistration no-op changes nothing. -/
def RegistrationDeltaSpec : Prop :=
  (∀ (prof : Profile) (conf : Conference) (wsck : String)
      (r : Profile × Conference × Bool),
      conferenceRegistration prof conf wsck true = Except.ok r →
      r.2.1.seatsAvailable = conf.seatsAvailable - 1 ∧ r.2.2 = true) ∧
  (∀ (prof : Profile) (conf : Conference) (wsck : String)
      (r : Profile × Conference × Bool),
      conferenceRegistration prof conf wsck false = Except.ok r →
      (r.2.2 = true ∧ r.2.1.seatsAvailable = conf.seatsAvailable + 1) ∨
      (r.2.2 = false ∧ r.2.1 = conf ∧ r.1 = prof))

/-! Concrete sample data used by witnesses and counterexamples. -/

/-- Sample organizer identity. -/
def sampleOrganizer : User :=
  { userId := "org1", nickname := "Org", email := "org@example.com" }

/-- Sample attendee identity. -/
def sampleAttendee : User :=
  { userId := "att1", nickname := "Att", email := "att@example.com" }

/-- A `ConferenceForm` with every field unset. -/
def blankForm : ConferenceForm :=
  { name := none, description := none, organizerUserId := none, topics := [],
    city := none, startDate := none, endDate := none, month := none,
    maxAttendees := none, seatsAvailable := none, websafeKey := none,
    organizerDisplayName := none }

/-- Create request supplying `seatsAvailable = 5` while `maxAttendees`
defaults to 0. -/
def badCreateReq : ConferenceForm :=
  { blankForm with name := some ("Overbooked"), seatsAvailable := some (5) }

/-- The conference record `badCreateReq` creates. -/
def badConf : Conference :=
  { name := "Overbooked", description := none, organizerUserId := "org1",
    topics := ["Default", "Topic"], city := "Default City",
    startDate := none, endDate := none, month := 0, maxAttendees := 0,
    seatsAvailable := 5 }

/-- Store after creating `badCreateReq` in the empty store. -/
def badState : DState := { profiles := [], conferences := [("k1", badConf)] }

/-- A well-behaved create request with two seats. -/
def goodCreateReq : ConferenceForm :=
  { blankForm with name := some ("Lean Conf"), maxAttendees := some (2) }

/-- The conference record `goodCreateReq` creates. -/
def goodConf : Conference :=
  { name := "Lean Conf", description := none, organizerUserId := "org1",
    topics := ["Default", "Topic"], city := "Default City",
    startDate := none, endDate := none, month := 0, maxAttendees := 2,
    seatsAvailable := 2 }

/-- Store after creating `goodCreateReq` in the empty store. -/
def stateA : DState := { profiles := [], conferences := [("k1", goodConf)] }

/-- Store after `sampleAttendee` additionally registers for `"k1"`. -/
def stateB : DState :=
  { profiles := [{ freshProfile sampleAttendee with
      conferenceKeysToAttend := ["k1"] }],
    conferences := [("k1", { goodConf with seatsAvailable := 1 })] }

/-- Store with an attendee profile (not registered) and a two-seat
conference. -/
def regState : DState :=
  { profiles := [freshProfile sampleAttendee],
    conferences := [("k1", goodConf)] }

/-- Store with an attendee registered for a conference with no seats
left. -/
def c4State : DState :=
  { profiles := [{ freshProfile sampleAttendee with
      conferenceKeysToAttend := ["k1"] }],
    conferences := [("k1", { goodConf with seatsAvailable := 0 })] }

/-- Create request whose `startDate` string has a valid 10-character
prefix followed by a time suffix. -/
def truncCreateReq : ConferenceForm :=
  { blankForm with
      name := some ("TruncConf"),
      startDate := some ("2020-05-01T00:00:00") }

/-- The conference record `truncCreateReq` creates: the date parses from
the first 10 characters. -/
def truncConf : Conference :=
  { name := "TruncConf", description := none, organizerUserId := "org1",
    topics := ["Default", "Topic"], city := "Default City",
    startDate := some { year := 2020, month := 5, day := 1 },
    endDate := none, month := 5, maxAttendees := 0, seatsAvailable := 0 }

/-- Create request with a leap-day start date and a plain end date. -/
def dateCreateReq : ConferenceForm :=
  { blankForm with
      name := some ("DateConf"),
      startDate := some ("2016-02-29"),
      endDate := some ("2016-03-01") }

/-! Helper lemmas about the store operations. -/

/-- A found profile carries the id it was looked up by. -/
theorem findProfile_userId {l : List Profile} {uid : String} {p : Profile}
    (h : findProfile l uid = some p) : p.userId = uid := by
  induction l with
  | nil => simp [findProfile] at h
  | cons q rest ih =>
    by_cases hq : q.userId = uid
    · simp [findProfile, hq] at h
      cases h
      exact hq
    · simp [findProfile, hq] at h
      exact ih h

/-- A found profile is a member of the table. -/
theorem findProfile_mem {l : List Profile} {uid : String} {p : Profile}
    (h : findProfile l uid = some p) : p ∈ l := by
  induction l with
  | nil => simp [findProfile] at h
  | cons q rest ih =>
    by_cases hq : q.userId = uid
    · simp [findProfile, hq] at h
      simp [h]
    · simp [findProfile, hq] at h
      exact List.mem_cons_of_mem _ (ih h)

/-- A failed profile lookup means no member has that id. -/
theorem findProfile_none {l : List Profile} {uid : String}
    (h : findProfile l uid = none) : ∀ p ∈ l, p.userId ≠ uid := by
  induction l with
  | nil => simp
  | cons q rest ih =>
    by_cases hq : q.userId = uid
    · simp [findProfile, hq] at h
    · simp [findProfile, hq] at h
      intro p hp
      cases hp with
      | head => exact hq
      | tail _ hp2 => exact ih h p hp2

/-- Putting back the exact record that lookup returned is a no-op. -/
theorem putProfile_self {l : List Profile} {prof : Profile}
    (h : findProfile l prof.userId = some prof) : putProfile l prof = l := by
  induction l with
  | nil => simp [findProfile] at h
  | cons q rest ih =>
    by_cases hq : q.userId = prof.userId
    · simp [findProfile, hq] at h
      simp [putProfile, hq, h]
    · simp [findProfile, hq] at h
      simp [putProfile, hq, ih h]

/-- Putting a profile with a fresh id appends it. -/
theorem putProfile_append {l : List Profile} {p : Profile}
    (h : findProfile l p.userId = none) : putProfile l p = l ++ [p] := by
  induction l with
  | nil => simp [putProfile]
  | cons q rest ih =>
    by_cases hq : q.userId = p.userId
    · simp [findProfile, hq] at h
    · simp [findProfile, hq] at h
      simp [putProfile, hq, ih h]

/-- Looking up a freshly appended profile finds it. -/
theorem findProfile_append_self {l : List Profile} {p : Profile}
    (h : findProfile l p.userId = none) :
    findProfile (l ++ [p]) p.userId = some p := by
  induction l with
  | nil => simp [findProfile]
  | cons q rest ih =>
    by_cases hq : q.userId = p.userId
    · simp [findProfile, hq] at h
    · simp [findProfile, hq] at h
      simp [findProfile, hq, ih h]

/-- A found conference pair is a member of the table. -/
theorem confLookup_mem {l : List (String × Conference)} {k : String}
    {c : Conference} (h : confLookup l k = some c) : (k, c) ∈ l := by
  induction l with
  | nil => simp [confLookup] at h
  | cons kc rest ih =>
    obtain ⟨k0, c0⟩ := kc
    by_cases hk : k = k0
    · simp [confLookup, hk] at h
      simp [hk, h]
    · simp [confLookup, hk] at h
      exact List.mem_cons_of_mem _ (ih h)

/-- A found conference key is among the stored keys. -/
theorem confLookup_mem_keys {l : List (String × Conference)} {k : String}
    {c : Conference} (h : confLookup l k = some c) :
    k ∈ l.map Prod.fst := by
  have := confLookup_mem h
  exact List.mem_map.mpr ⟨(k, c), this, rfl⟩

/-- Putting back the exact conference that lookup returned is a no-op. -/
theorem putConference_self {l : List (String × Conference)} {k : String}
    {c : Conference} (h : confLookup l k = some c) :
    putConference l k c = l := by
  induction l with
  | nil => simp [confLookup] at h
  | cons kc rest ih =>
    obtain ⟨k0, c0⟩ := kc
    by_cases hk : k = k0
    · simp [confLookup, hk] at h
      simp [putConference, hk, h]
    · simp [confLookup, hk] at h
      have hk' : k0 ≠ k := fun hh => hk hh.symm
      simp [putConference, hk', ih h]

/-- What `_get_profile_from_user` guarantees about its result: the
conference table is untouched, the returned profile carries the caller's
id and is found in the returned table, and an existing profile is
returned with the store unchanged. -/
theorem getProfileFromUser_spec {s : DState} {u : User} {prof : Profile}
    {s1 : DState}
    (h : getProfileFromUser s (some u) = Except.ok (prof, s1)) :
    s1.conferences = s.conferences ∧ prof.userId = u.userId ∧
    findProfile s1.profiles prof.userId = some prof ∧
    (∀ p, findProfile s.profiles u.userId = some p → prof = p ∧ s1 = s) := by
  simp only [getProfileFromUser] at h
  cases hf : findProfile s.profiles u.userId with
  | some p =>
    rw [hf] at h
    cases h
    refine ⟨rfl, findProfile_userId hf, ?_, ?_⟩
    · rw [findProfile_userId hf]
      exact hf
    · intro q hq
      cases hq
      exact ⟨rfl, rfl⟩
  | none =>
    rw [hf] at h
    cases h
    have hfr : findProfile s.profiles (freshProfile u).userId = none := hf
    refine ⟨rfl, rfl, ?_, ?_⟩
    · show findProfile (putProfile s.profiles (freshProfile u))
        (freshProfile u).userId = some (freshProfile u)
      rw [putProfile_append hfr]
      exact findProfile_append_self hfr
    · intro q hq
      cases hq

/-- C3. Registration success path: an authenticated caller whose profile
does not yet contain the conference key, registering for an existing
conference with a free seat, gets the key appended to
`conferenceKeysToAttend`, the conference's `seatsAvailable` decremented
by exactly 1, both records persisted, and `true` returned. -/
theorem register_success (s : DState) (u : User) (wsck : String)
    (prof : Profile) (s1 : DState) (conf : Conference)
    (hp : getProfileFromUser s (some u) = Except.ok (prof, s1))
    (hnk : wsck ∉ prof.conferenceKeysToAttend)
    (hc : confLookup s1.conferences wsck = some conf)
    (hs : 0 < conf.seatsAvailable) :
    conferenceRegistrationState s (some u) wsck true =
      Except.ok
        ({ profiles := putProfile s1.profiles
             { prof with conferenceKeysToAttend :=
                 prof.conferenceKeysToAttend ++ [wsck] },
           conferences := putConference s1.conferences wsck
             { conf with seatsAvailable := conf.seatsAvailable - 1 } },
         true) := by
  unfold conferenceRegistrationState
  rw [hp]
  simp only [hc]
  unfold conferenceRegistration
  rw [if_pos rfl, if_neg hnk, if_neg (by omega : ¬ conf.seatsAvailable ≤ 0)]

/-- Witness for `register_success` at a concrete store. -/
theorem register_success_witness :
    conferenceRegistrationState regState (some sampleAttendee) ("k1") true =
      Except.ok
        ({ profiles := putProfile regState.profiles
             { freshProfile sampleAttendee with conferenceKeysToAttend :=
                 (freshProfile sampleAttendee).conferenceKeysToAttend ++ ["k1"] },
           conferences := putConference regState.conferences ("k1")
             { goodConf with seatsAvailable := goodConf.seatsAvailable - 1 } },
         true) :=
  register_success regState sampleAttendee ("k1")
    (freshProfile sampleAttendee) regState goodConf (by rfl) (by decide)
    (by rfl) (by decide)

/-- C4. Registration rejection with atomicity: registering while the key
is already present fails with AlreadyRegistered; registering with the key
absent and no seats left fails with NoSeatsAvailable. In both cases the
transaction aborts, so the resulting `Except.error` carries no state and
the store is unchanged. -/
theorem register_rejection (s : DState) (u : User) (wsck : String)
    (prof : Profile) (s1 : DState) (conf : Conference)
    (hp : getProfileFromUser s (some u) = Except.ok (prof, s1))
    (hc : confLookup s1.conferences wsck = some conf) :
    (wsck ∈ prof.conferenceKeysToAttend →
      conferenceRegistrationState s (some u) wsck true =
        Except.error (ApiError.conflict
          ("You have already registered for this conference"))) ∧
    (wsck ∉ prof.conferenceKeysToAttend → conf.seatsAvailable ≤ 0 →
      conferenceRegistrationState s (some u) wsck true =
        Except.error (ApiError.conflict ("There are no seats available."))) := by
  constructor
  · intro hmem
    unfold conferenceRegistrationState
    rw [hp]
    simp only [hc]
    unfold conferenceRegistration
    rw [if_pos rfl, if_pos hmem]
  · intro hmem hseats
    unfold conferenceRegistrationState
    rw [hp]
    simp only [hc]
    unfold conferenceRegistration
    rw [if_pos rfl, if_neg hmem, if_pos hseats]

/-- Witness for `register_rejection`: a registered attendee registering
again is rejected with AlreadyRegistered. -/
theorem register_rejection_witness :
    ("k1" ∈ ({ freshProfile sampleAttendee with
        conferenceKeysToAttend := ["k1"] } : Profile).conferenceKeysToAttend) ∧
    conferenceRegistrationState c4State (some sampleAttendee) ("k1") true =
      Except.error (ApiError.conflict
        ("You have already registered for this conference")) :=
  ⟨by decide,
   (register_rejection c4State sampleAttendee ("k1")
      { freshProfile sampleAttendee with conferenceKeysToAttend := ["k1"] }
      c4State { goodConf with seatsAvailable := 0 }
      (by rfl) (by rfl)).1 (by decide)⟩

/-- C5. Unregistration semantics: when the key is present it is removed
(`list.remove`, and under the no-duplicates invariant it is then gone),
`seatsAvailable` is incremented by exactly 1, both records are persisted
and `true` is returned; when the key is absent the call succeeds with
`false` and the store comes back exactly as the profile fetch left it
(`s1`), which for an already-profiled caller is the original store. -/
theorem unregister_semantics (s : DState) (u : User) (wsck : String)
    (prof : Profile) (s1 : DState) (conf : Conference)
    (hp : getProfileFromUser s (some u) = Except.ok (prof, s1))
    (hc : confLookup s1.conferences wsck = some conf)
    (hnd : prof.conferenceKeysToAttend.Nodup) :
    (wsck ∈ prof.conferenceKeysToAttend →
      conferenceRegistrationState s (some u) wsck false =
        Except.ok
          ({ profiles := putProfile s1.profiles
               { prof with conferenceKeysToAttend :=
                   prof.conferenceKeysToAttend.erase wsck },
             conferences := putConference s1.conferences wsck
               { conf with seatsAvailable := conf.seatsAvailable + 1 } },
           true) ∧
      wsck ∉ prof.conferenceKeysToAttend.erase wsck) ∧
    (wsck ∉ prof.conferenceKeysToAttend →
      conferenceRegistrationState s (some u) wsck false =
        Except.ok (s1, false)) ∧
    (∀ p, findProfile s.profiles u.userId = some p → s1 = s) := by
  obtain ⟨hconf, huid, hfind, hexist⟩ := getProfileFromUser_spec hp
  refine ⟨?_, ?_, fun p hfp => (hexist p hfp).2⟩
  · intro hmem
    constructor
    · unfold conferenceRegistrationState
      rw [hp]
      simp only [hc]
      unfold conferenceRegistration
      simp only [Bool.false_eq_true, if_false, if_pos hmem]
    · exact hnd.not_mem_erase
  · intro hmem
    unfold conferenceRegistrationState
    rw [hp]
    simp only [hc]
    unfold conferenceRegistration
    simp only [Bool.false_eq_true, if_false, if_neg hmem]
    rw [putProfile_self hfind, putConference_self hc]

/-- Witness for `unregister_semantics`: the registered attendee of
`c4State` unregisters, freeing one seat. -/
theorem unregister_semantics_witness :
    (("k1" ∈ ({ freshProfile sampleAttendee with
        conferenceKeysToAttend := ["k1"] } : Profile).conferenceKeysToAttend →
      conferenceRegistrationState c4State (some sampleAttendee) ("k1") false =
        Except.ok
          ({ profiles := putProfile c4State.profiles
               { { freshProfile sampleAttendee with
                     conferenceKeysToAttend := ["k1"] } with
                   conferenceKeysToAttend := (["k1"] : List String).erase ("k1") },
             conferences := putConference c4State.conferences ("k1")
               { { goodConf with seatsAvailable := 0 } with
                   seatsAvailable :=
                     ({ goodConf with seatsAvailable := 0 } : Conference).seatsAvailable + 1 } },
           true) ∧
      "k1" ∉ (["k1"] : List String).erase ("k1")) ∧
     ("k1" ∉ ({ freshProfile sampleAttendee with
        conferenceKeysToAttend := ["k1"] } : Profile).conferenceKeysToAttend →
      conferenceRegistrationState c4State (some sampleAttendee) ("k1") false =
        Except.ok (c4State, false)) ∧
     (∀ p, findProfile c4State.profiles sampleAttendee.userId = some p →
        c4State = c4State)) :=
  unregister_semantics c4State sampleAttendee ("k1")
    { freshProfile sampleAttendee with conferenceKeysToAttend := ["k1"] }
    c4State { goodConf with seatsAvailable := 0 }
    (by rfl) (by rfl) (by decide)

/-- C6. The claim says a non-owner caller gets NotOwner; in fact every
authenticated `updateConference` call fails with `NameError` because
line 439 references the undefined global `_getUserId` (the imported
helper is `get_user_id`), so the NotOwner branch is unreachable. The
transaction aborts, leaving the record unchanged. -/
theorem update_conference_always_name_error (u : User) (req : ConferenceForm)
    (wsck : String) (s : DState) :
    updateConferenceObject (some u) req wsck s =
      Except.error (ApiError.nameError ("_getUserId")) := rfl

/-- C10. Frame property of `saveProfile`: only `displayName` and
`teeShirtSize` can change; `userId`, `mainEmail` and
`conferenceKeysToAttend` are untouched; an absent or empty request field
keeps the previous value. -/
theorem save_profile_frame (prof : Profile) (req : ProfileMiniForm) :
    (doProfileUpdate prof req).userId = prof.userId ∧
    (doProfileUpdate prof req).mainEmail = prof.mainEmail ∧
    (doProfileUpdate prof req).conferenceKeysToAttend =
      prof.conferenceKeysToAttend ∧
    ((req.displayName = none ∨ req.displayName = some ("")) →
      (doProfileUpdate prof req).displayName = prof.displayName) ∧
    ((req.teeShirtSize = none ∨ req.teeShirtSize = some ("")) →
      (doProfileUpdate prof req).teeShirtSize = prof.teeShirtSize) := by
  unfold doProfileUpdate
  rcases req.displayName with _ | d <;> rcases req.teeShirtSize with _ | t <;>
    simp <;> split_ifs <;> simp_all

/-- Witness for `save_profile_frame` at a concrete profile and request. -/
theorem save_profile_frame_witness :
    (doProfileUpdate (freshProfile sampleAttendee)
       { displayName := some ("New Name"), teeShirtSize := none }).userId =
      (freshProfile sampleAttendee).userId ∧
    (doProfileUpdate (freshProfile sampleAttendee)
       { displayName := some ("New Name"), teeShirtSize := none }).mainEmail =
      (freshProfile sampleAttendee).mainEmail ∧
    (doProfileUpdate (freshProfile sampleAttendee)
       { displayName := some ("New Name"), teeShirtSize := none }).conferenceKeysToAttend =
      (freshProfile sampleAttendee).conferenceKeysToAttend ∧
    ((({ displayName := some ("New Name"), teeShirtSize := none } :
        ProfileMiniForm).displayName = none ∨
      ({ displayName := some ("New Name"), teeShirtSize := none } :
        ProfileMiniForm).displayName = some ("")) →
      (doProfileUpdate (freshProfile sampleAttendee)
         { displayName := some ("New Name"), teeShirtSize := none }).displayName =
        (freshProfile sampleAttendee).displayName) ∧
    ((({ displayName := some ("New Name"), teeShirtSize := none } :
        ProfileMiniForm).teeShirtSize = none ∨
      ({ displayName := some ("New Name"), teeShirtSize := none } :
        ProfileMiniForm).teeShirtSize = some ("")) →
      (doProfileUpdate (freshProfile sampleAttendee)
         { displayName := some ("New Name"), teeShirtSize := none }).teeShirtSize =
        (freshProfile sampleAttendee).teeShirtSize) :=
  save_profile_frame (freshProfile sampleAttendee)
    { displayName := some ("New Name"), teeShirtSize := none }

/-! Filter compiler: the single-inequality-field rule. -/

/-- Exhaustive description of a successful `OPERATORS` lookup. -/
theorem dictGet_OPERATORS_cases {op v : String}
    (h : dictGet OPERATORS op = some v) :
    (op = "EQ" ∧ v = "=") ∨ (op = "GT" ∧ v = ">") ∨
    (op = "GTEQ" ∧ v = ">=") ∨ (op = "LT" ∧ v = "<") ∨
    (op = "LTEQ" ∧ v = "<=") ∨ (op = "NE" ∧ v = "!=") := by
  simp only [OPERATORS, dictGet] at h
  split_ifs at h <;> simp_all

/-- Exhaustive description of a successful `FIELDS` lookup. -/
theorem dictGet_FIELDS_cases {a x : String}
    (h : dictGet FIELDS a = some x) :
    (a = "CITY" ∧ x = "city") ∨ (a = "TOPIC" ∧ x = "topics") ∨
    (a = "MONTH" ∧ x = "month") ∨ (a = "MAX_ATTENDEES" ∧ x = "maxAttendees") := by
  simp only [FIELDS, dictGet] at h
  split_ifs at h <;> simp_all

/-- The `FIELDS` whitelist maps distinct names to distinct properties. -/
theorem fields_inj {a b x y : String} (ha : dictGet FIELDS a = some x)
    (hb : dictGet FIELDS b = some y) : (a = b ↔ x = y) := by
  rcases dictGet_FIELDS_cases ha with ⟨rfl, rfl⟩ | ⟨rfl, rfl⟩ | ⟨rfl, rfl⟩ | ⟨rfl, rfl⟩ <;>
    rcases dictGet_FIELDS_cases hb with ⟨rfl, rfl⟩ | ⟨rfl, rfl⟩ | ⟨rfl, rfl⟩ | ⟨rfl, rfl⟩ <;>
      decide

/-- For a whitelisted operator, "inequality clause" means exactly
"operator other than EQ" (only EQ maps to `=`). -/
theorem isIneqB_iff {f : ConferenceQueryForm} {v : String}
    (h : dictGet OPERATORS f.operator = some v) :
    (isIneqB f = true ↔ f.operator ≠ "EQ") := by
  rcases dictGet_OPERATORS_cases h with ⟨h1, rfl⟩ | ⟨h1, rfl⟩ | ⟨h1, rfl⟩ |
      ⟨h1, rfl⟩ | ⟨h1, rfl⟩ | ⟨h1, rfl⟩ <;>
    simp [isIneqB, h, h1] <;> decide

/-- The empty list is constant. -/
theorem listConst_nil : listConst [] := by simp [listConst]

/-- A duplicated head does not change constancy. -/
theorem listConst_cons_dup (a : String) (l : List String) :
    listConst (a :: a :: l) ↔ listConst (a :: l) := by
  unfold listConst
  simp only [List.mem_cons]
  constructor
  · intro h x hx y hy
    exact h x (by tauto) y (by tauto)
  · intro h x hx y hy
    exact h x (by tauto) y (by tauto)

/-- Two distinct members refute constancy. -/
theorem not_listConst_of_two {a b : String} {l : List String} (hab : a ≠ b)
    (ha : a ∈ l) (hb : b ∈ l) : ¬ listConst l :=
  fun h => hab (h a ha b hb)

/-- Success characterization of the `_format_filters` loop: starting from
inequality seed `seed`, the whitelisted clause list is accepted exactly
when the seed together with the mapped fields of all inequality clauses
agree on a single field. -/
theorem formatFiltersFrom_ok_iff :
    ∀ (filters : List ConferenceQueryForm) (seed : Option String),
    (∀ f ∈ filters,
      (dictGet FIELDS f.field).isSome ∧ (dictGet OPERATORS f.operator).isSome) →
    ((∃ out, formatFiltersFrom filters seed = Except.ok out) ↔
      listConst (seed.toList ++ ineqFieldsOf filters)) := by
  intro filters
  induction filters with
  | nil =>
    intro seed _hw
    simp only [formatFiltersFrom, ineqFieldsOf, List.filter_nil, List.map_nil,
      List.append_nil]
    cases seed <;> simp [listConst, Option.toList]
  | cons f rest ih =>
    intro seed hw
    obtain ⟨hfsome, hopsome⟩ := hw f (List.mem_cons_self f rest)
    obtain ⟨fld, hfld⟩ := Option.isSome_iff_exists.mp hfsome
    obtain ⟨op, hop⟩ := Option.isSome_iff_exists.mp hopsome
    have hwrest : ∀ g ∈ rest,
        (dictGet FIELDS g.field).isSome ∧ (dictGet OPERATORS g.operator).isSome :=
      fun g hg => hw g (List.mem_cons_of_mem f hg)
    simp only [formatFiltersFrom, hfld, hop]
    by_cases heq : op = "="
    · subst heq
      rw [if_neg (by simp)]
      have hineqf : isIneqB f = false := by simp [isIneqB, hop]
      have hlist : ineqFieldsOf (f :: rest) = ineqFieldsOf rest := by
        simp [ineqFieldsOf, List.filter_cons, hineqf]
      rw [hlist, ← ih seed hwrest]
      cases hrec : formatFiltersFrom rest seed with
      | ok out0 =>
        obtain ⟨o, fs⟩ := out0
        simp
      | error e => simp
    · rw [if_pos heq]
      have hineqf : isIneqB f = true := by simp [isIneqB, hop, heq]
      have hfof : fieldOf f = fld := by simp [fieldOf, hfld]
      have hlist : ineqFieldsOf (f :: rest) = fld :: ineqFieldsOf rest := by
        simp [ineqFieldsOf, List.filter_cons, hineqf, hfof]
      rw [hlist]
      cases seed with
      | none =>
        simp only []
        have hto : (Option.toList (none : Option String) ++ (fld :: ineqFieldsOf rest)) =
            (some fld : Option String).toList ++ ineqFieldsOf rest := rfl
        rw [hto, ← ih (some fld) hwrest]
        cases hrec : formatFiltersFrom rest (some fld) with
        | ok out0 =>
          obtain ⟨o, fs⟩ := out0
          simp
        | error e => simp
      | some g =>
        simp only []
        by_cases hg : g = fld
        · subst hg
          rw [if_neg (by simp)]
          have hto : (Option.toList (some g) ++ (g :: ineqFieldsOf rest)) =
              g :: g :: ineqFieldsOf rest := rfl
          rw [hto, listConst_cons_dup]
          have hto2 : (g :: ineqFieldsOf rest) =
              (some g : Option String).toList ++ ineqFieldsOf rest := rfl
          rw [hto2, ← ih (some g) hwrest]
          cases hrec : formatFiltersFrom rest (some g) with
          | ok out0 =>
            obtain ⟨o, fs⟩ := out0
            simp
          | error e => simp
        · rw [if_pos hg]
          have hnc : ¬ listConst (g :: fld :: ineqFieldsOf rest) := by
            apply not_listConst_of_two hg <;> simp
          simp [hnc]

/-- Under whitelisted clauses, the loop either succeeds or reports the
multiple-inequality error; no other outcome occurs. -/
theorem formatFiltersFrom_ok_or_err :
    ∀ (filters : List ConferenceQueryForm) (seed : Option String),
    (∀ f ∈ filters,
      (dictGet FIELDS f.field).isSome ∧ (dictGet OPERATORS f.operator).isSome) →
    (∃ out, formatFiltersFrom filters seed = Except.ok out) ∨
      formatFiltersFrom filters seed = Except.error multipleIneqErr := by
  intro filters
  induction filters with
  | nil =>
    intro seed _hw
    exact Or.inl ⟨(seed, []), rfl⟩
  | cons f rest ih =>
    intro seed hw
    obtain ⟨hfsome, hopsome⟩ := hw f (List.mem_cons_self f rest)
    obtain ⟨fld, hfld⟩ := Option.isSome_iff_exists.mp hfsome
    obtain ⟨op, hop⟩ := Option.isSome_iff_exists.mp hopsome
    have hwrest : ∀ g ∈ rest,
        (dictGet FIELDS g.field).isSome ∧ (dictGet OPERATORS g.operator).isSome :=
      fun g hg => hw g (List.mem_cons_of_mem f hg)
    simp only [formatFiltersFrom, hfld, hop]
    by_cases heq : op = "="
    · subst heq
      rw [if_neg (by simp)]
      rcases ih seed hwrest with ⟨⟨o, fs⟩, hok⟩ | herr
      · rw [hok]
        exact Or.inl ⟨(o, { field := fld, operator := "=", value := f.value } :: fs), rfl⟩
      · rw [herr]
        exact Or.inr rfl
    · rw [if_pos heq]
      cases seed with
      | none =>
        simp only []
        rcases ih (some fld) hwrest with ⟨⟨o, fs⟩, hok⟩ | herr
        · rw [hok]
          exact Or.inl ⟨(o, { field := fld, operator := op, value := f.value } :: fs), rfl⟩
        · rw [herr]
          exact Or.inr rfl
      | some g =>
        simp only []
        by_cases hg : g = fld
        · subst hg
          rw [if_neg (by simp)]
          rcases ih (some g) hwrest with ⟨⟨o, fs⟩, hok⟩ | herr
          · rw [hok]
            exact Or.inl ⟨(o, { field := g, operator := op, value := f.value } :: fs), rfl⟩
          · rw [herr]
            exact Or.inr rfl
        · rw [if_pos hg]
          exact Or.inr rfl

/-- Error characterization of the `_format_filters` loop. -/
theorem formatFiltersFrom_error_iff (filters : List ConferenceQueryForm)
    (seed : Option String)
    (hw : ∀ f ∈ filters,
      (dictGet FIELDS f.field).isSome ∧ (dictGet OPERATORS f.operator).isSome) :
    (formatFiltersFrom filters seed = Except.error multipleIneqErr ↔
      ¬ listConst (seed.toList ++ ineqFieldsOf filters)) := by
  rcases formatFiltersFrom_ok_or_err filters seed hw with ⟨out, hok⟩ | herr
  · have hconst := (formatFiltersFrom_ok_iff filters seed hw).mp ⟨out, hok⟩
    simp [hok, hconst]
  · have hnc : ¬ listConst (seed.toList ++ ineqFieldsOf filters) := by
      intro hc
      obtain ⟨out, hok⟩ := (formatFiltersFrom_ok_iff filters seed hw).mpr hc
      rw [herr] at hok
      cases hok
    simp [herr, hnc]

/-- C2. Inequality-field rule: for whitelisted clause sequences, the
compiler fails with MultipleInequalityFields exactly when two clauses use
non-equality operators on two distinct fields; equality clauses never
trigger it, and when all inequality clauses share one field the compiler
succeeds. -/
theorem filter_inequality_rule (filters : List ConferenceQueryForm)
    (hw : ∀ f ∈ filters,
      (dictGet FIELDS f.field).isSome ∧ (dictGet OPERATORS f.operator).isSome) :
    (formatFilters filters = Except.error multipleIneqErr ↔
      ∃ f ∈ filters, ∃ g ∈ filters,
        f.operator ≠ "EQ" ∧ g.operator ≠ "EQ" ∧ f.field ≠ g.field) ∧
    ((∀ f ∈ filters, ∀ g ∈ filters,
        f.operator ≠ "EQ" → g.operator ≠ "EQ" → f.field = g.field) →
      ∃ out, formatFilters filters = Except.ok out) := by
  have herr := formatFiltersFrom_error_iff filters none hw
  have hok := formatFiltersFrom_ok_iff filters none hw
  have htl : (Option.toList (none : Option String) ++ ineqFieldsOf filters) =
      ineqFieldsOf filters := rfl
  rw [htl] at herr hok
  constructor
  · rw [formatFilters, herr]
    constructor
    · intro hnc
      unfold listConst at hnc
      push_neg at hnc
      obtain ⟨a, ha, b, hb, hab⟩ := hnc
      simp only [ineqFieldsOf, List.mem_map, List.mem_filter] at ha hb
      obtain ⟨f, ⟨hf, hif⟩, hfa⟩ := ha
      obtain ⟨g, ⟨hg, hig⟩, hgb⟩ := hb
      obtain ⟨vf, hvf⟩ := Option.isSome_iff_exists.mp (hw f hf).2
      obtain ⟨vg, hvg⟩ := Option.isSome_iff_exists.mp (hw g hg).2
      refine ⟨f, hf, g, hg, (isIneqB_iff hvf).mp hif, (isIneqB_iff hvg).mp hig, ?_⟩
      intro hfg
      apply hab
      rw [← hfa, ← hgb]
      simp [fieldOf, hfg]
    · rintro ⟨f, hf, g, hg, hof, hog, hfg⟩
      obtain ⟨xf, hxf⟩ := Option.isSome_iff_exists.mp (hw f hf).1
      obtain ⟨xg, hxg⟩ := Option.isSome_iff_exists.mp (hw g hg).1
      obtain ⟨vf, hvf⟩ := Option.isSome_iff_exists.mp (hw f hf).2
      obtain ⟨vg, hvg⟩ := Option.isSome_iff_exists.mp (hw g hg).2
      have hxne : fieldOf f ≠ fieldOf g := by
        have h1 : fieldOf f = xf := by simp [fieldOf, hxf]
        have h2 : fieldOf g = xg := by simp [fieldOf, hxg]
        rw [h1, h2]
        exact fun hx => hfg ((fields_inj hxf hxg).mpr hx)
      have hmf : fieldOf f ∈ ineqFieldsOf filters := by
        simp only [ineqFieldsOf, List.mem_map, List.mem_filter]
        exact ⟨f, ⟨hf, (isIneqB_iff hvf).mpr hof⟩, rfl⟩
      have hmg : fieldOf g ∈ ineqFieldsOf filters := by
        simp only [ineqFieldsOf, List.mem_map, List.mem_filter]
        exact ⟨g, ⟨hg, (isIneqB_iff hvg).mpr hog⟩, rfl⟩
      exact not_listConst_of_two hxne hmf hmg
  · intro hshare
    apply hok.mpr
    intro a ha b hb
    simp only [ineqFieldsOf, List.mem_map, List.mem_filter] at ha hb
    obtain ⟨f, ⟨hf, hif⟩, hfa⟩ := ha
    obtain ⟨g, ⟨hg, hig⟩, hgb⟩ := hb
    obtain ⟨vf, hvf⟩ := Option.isSome_iff_exists.mp (hw f hf).2
    obtain ⟨vg, hvg⟩ := Option.isSome_iff_exists.mp (hw g hg).2
    have hsame := hshare f hf g hg ((isIneqB_iff hvf).mp hif) ((isIneqB_iff hvg).mp hig)
    rw [← hfa, ← hgb]
    simp [fieldOf, hsame]

/-- Witness for `filter_inequality_rule` on a concrete clause list with
inequality clauses on two distinct fields. -/
theorem filter_inequality_rule_witness :
    (formatFilters
        [{ field := "CITY", operator := "EQ", value := "London" },
         { field := "MONTH", operator := "GT", value := "6" },
         { field := "MAX_ATTENDEES", operator := "LT", value := "100" }] =
          Except.error multipleIneqErr ↔
      ∃ f ∈ [({ field := "CITY", operator := "EQ", value := "London" } :
          ConferenceQueryForm),
          { field := "MONTH", operator := "GT", value := "6" },
          { field := "MAX_ATTENDEES", operator := "LT", value := "100" }],
        ∃ g ∈ [({ field := "CITY", operator := "EQ", value := "London" } :
            ConferenceQueryForm),
            { field := "MONTH", operator := "GT", value := "6" },
            { field := "MAX_ATTENDEES", operator := "LT", value := "100" }],
          f.operator ≠ "EQ" ∧ g.operator ≠ "EQ" ∧ f.field ≠ g.field) ∧
    ((∀ f ∈ [({ field := "CITY", operator := "EQ", value := "London" } :
          ConferenceQueryForm),
          { field := "MONTH", operator := "GT", value := "6" },
          { field := "MAX_ATTENDEES", operator := "LT", value := "100" }],
        ∀ g ∈ [({ field := "CITY", operator := "EQ", value := "London" } :
            ConferenceQueryForm),
            { field := "MONTH", operator := "GT", value := "6" },
            { field := "MAX_ATTENDEES", operator := "LT", value := "100" }],
          f.operator ≠ "EQ" → g.operator ≠ "EQ" → f.field = g.field) →
      ∃ out, formatFilters
        [{ field := "CITY", operator := "EQ", value := "London" },
         { field := "MONTH", operator := "GT", value := "6" },
         { field := "MAX_ATTENDEES", operator := "LT", value := "100" }] =
          Except.ok out) :=
  filter_inequality_rule
    [{ field := "CITY", operator := "EQ", value := "London" },
     { field := "MONTH", operator := "GT", value := "6" },
     { field := "MAX_ATTENDEES", operator := "LT", value := "100" }]
    (by decide)

/-- A successful run of the `_format_filters` loop implies every clause
passed both whitelists. -/
theorem formatFiltersFrom_ok_whitelisted :
    ∀ (filters : List ConferenceQueryForm) (seed : Option String)
      (out : Option String × List Filtr),
    formatFiltersFrom filters seed = Except.ok out →
    ∀ f ∈ filters,
      (dictGet FIELDS f.field).isSome ∧ (dictGet OPERATORS f.operator).isSome := by
  intro filters
  induction filters with
  | nil =>
    intro seed out _h g hg
    cases hg
  | cons f rest ih =>
    intro seed out h g hg
    cases hfld : dictGet FIELDS f.field with
    | none =>
      simp only [formatFiltersFrom, hfld] at h
      exact Except.noConfusion h
    | some fld =>
      cases hop : dictGet OPERATORS f.operator with
      | none =>
        simp only [formatFiltersFrom, hfld, hop] at h
        exact Except.noConfusion h
      | some op =>
        simp only [formatFiltersFrom, hfld, hop] at h
        cases hg with
        | head => exact ⟨by simp [hfld], by simp [hop]⟩
        | tail _ hg2 =>
          by_cases heq : op = "="
          · subst heq
            rw [if_neg (by simp)] at h
            cases hrec : formatFiltersFrom rest seed with
            | ok out0 => exact ih seed out0 hrec g hg2
            | error e =>
              rw [hrec] at h
              simp at h
          · rw [if_pos heq] at h
            cases seed with
            | none =>
              simp only [] at h
              cases hrec : formatFiltersFrom rest (some fld) with
              | ok out0 => exact ih _ out0 hrec g hg2
              | error e =>
                rw [hrec] at h
                simp at h
            | some g0 =>
              simp only [] at h
              by_cases hg0 : g0 = fld
              · subst hg0
                rw [if_neg (by simp)] at h
                cases hrec : formatFiltersFrom rest (some g0) with
                | ok out0 => exact ih _ out0 hrec g hg2
                | error e =>
                  rw [hrec] at h
                  simp at h
              · rw [if_pos hg0] at h
                simp at h

/-- What the inequality-field output of a successful `_format_filters`
run is: the mapped field of every inequality clause; the seed when there
is no inequality clause; and a set seed is never dropped. -/
theorem formatFiltersFrom_ok_ineq :
    ∀ (filters : List ConferenceQueryForm) (seed o : Option String)
      (fs : List Filtr),
    formatFiltersFrom filters seed = Except.ok (o, fs) →
    (∀ f ∈ filters, isIneqB f = true → o = some (fieldOf f)) ∧
    ((∀ f ∈ filters, isIneqB f = false) → o = seed) ∧
    (∀ x, seed = some x → o = some x) := by
  intro filters
  induction filters with
  | nil =>
    intro seed o fs h
    simp only [formatFiltersFrom] at h
    simp only [Except.ok.injEq, Prod.mk.injEq] at h
    obtain ⟨rfl, rfl⟩ := h
    exact ⟨by simp, fun _ => rfl, fun x hx => hx⟩
  | cons f rest ih =>
    intro seed o fs h
    cases hfld : dictGet FIELDS f.field with
    | none =>
      simp only [formatFiltersFrom, hfld] at h
      exact Except.noConfusion h
    | some fld =>
      cases hop : dictGet OPERATORS f.operator with
      | none =>
        simp only [formatFiltersFrom, hfld, hop] at h
        exact Except.noConfusion h
      | some op =>
        simp only [formatFiltersFrom, hfld, hop] at h
        by_cases heq : op = "="
        · subst heq
          rw [if_neg (by simp)] at h
          have hineqf : isIneqB f = false := by simp [isIneqB, hop]
          cases hrec : formatFiltersFrom rest seed with
          | ok out0 =>
            obtain ⟨o', fs'⟩ := out0
            rw [hrec] at h
            simp only [Except.ok.injEq, Prod.mk.injEq] at h
            obtain ⟨rfl, rfl⟩ := h
            obtain ⟨ha, hb, hc⟩ := ih seed o' fs' hrec
            refine ⟨?_, ?_, hc⟩
            · intro g hg hig
              cases hg with
              | head => rw [hineqf] at hig; cases hig
              | tail _ hg2 => exact ha g hg2 hig
            · intro hall
              exact hb fun g hg => hall g (List.mem_cons_of_mem f hg)
          | error e =>
            rw [hrec] at h
            simp at h
        · rw [if_pos heq] at h
          have hineqf : isIneqB f = true := by simp [isIneqB, hop, heq]
          have hfof : fieldOf f = fld := by simp [fieldOf, hfld]
          cases seed with
          | none =>
            simp only [] at h
            cases hrec : formatFiltersFrom rest (some fld) with
            | ok out0 =>
              obtain ⟨o', fs'⟩ := out0
              rw [hrec] at h
              simp only [Except.ok.injEq, Prod.mk.injEq] at h
              obtain ⟨rfl, rfl⟩ := h
              obtain ⟨ha, hb, hc⟩ := ih (some fld) o' fs' hrec
              have ho : o' = some fld := hc fld rfl
              refine ⟨?_, ?_, ?_⟩
              · intro g hg hig
                cases hg with
                | head => rw [ho, hfof]
                | tail _ hg2 => exact ha g hg2 hig
              · intro hall
                have hbad := hall f (List.mem_cons_self f rest)
                rw [hineqf] at hbad
                cases hbad
              · intro x hx
                cases hx
            | error e =>
              rw [hrec] at h
              simp at h
          | some g0 =>
            simp only [] at h
            by_cases hg0 : g0 = fld
            · subst hg0
              rw [if_neg (by simp)] at h
              cases hrec : formatFiltersFrom rest (some g0) with
              | ok out0 =>
                obtain ⟨o', fs'⟩ := out0
                rw [hrec] at h
                simp only [Except.ok.injEq, Prod.mk.injEq] at h
                obtain ⟨rfl, rfl⟩ := h
                obtain ⟨ha, hb, hc⟩ := ih (some g0) o' fs' hrec
                have ho : o' = some g0 := hc g0 rfl
                refine ⟨?_, ?_, ?_⟩
                · intro g hg hig
                  cases hg with
                  | head => rw [ho, hfof]
                  | tail _ hg2 => exact ha g hg2 hig
                · intro hall
                  have hbad := hall f (List.mem_cons_self f rest)
                  rw [hineqf] at hbad
                  cases hbad
                · intro x hx
                  cases hx
                  exact ho
              | error e =>
                rw [hrec] at h
                simp at h
            · rw [if_pos hg0] at h
              simp at h

/-- C7. Query sort order: for every accepted filter set, the query sorts
primarily by the identified inequality field with `name` as secondary
key, and by `name` alone when no clause uses an inequality operator. -/
theorem query_sort_order (filters : List ConferenceQueryForm)
    (so : List String) (nodes : List FilterNode)
    (h : getQuery filters = Except.ok (so, nodes)) :
    ((∀ f ∈ filters, f.operator = "EQ") → so = ["name"]) ∧
    (∀ f ∈ filters, f.operator ≠ "EQ" → so = [fieldOf f, "name"]) := by
  unfold getQuery at h
  cases hff : formatFilters filters with
  | error e =>
    rw [hff] at h
    exact Except.noConfusion h
  | ok p =>
    obtain ⟨ineq, fs⟩ := p
    rw [hff] at h
    simp only [] at h
    cases hcf : coerceFilters fs with
    | error e =>
      rw [hcf] at h
      exact Except.noConfusion h
    | ok nds =>
      rw [hcf] at h
      simp only [Except.ok.injEq, Prod.mk.injEq] at h
      obtain ⟨hso, _hnodes⟩ := h
      have hwl := formatFiltersFrom_ok_whitelisted filters none (ineq, fs) hff
      obtain ⟨ha, hb, _hc⟩ := formatFiltersFrom_ok_ineq filters none ineq fs hff
      constructor
      · intro hall
        have hfalse : ∀ f ∈ filters, isIneqB f = false := by
          intro f hf
          obtain ⟨v, hv⟩ := Option.isSome_iff_exists.mp (hwl f hf).2
          have hni : ¬ isIneqB f = true := by
            rw [isIneqB_iff hv]
            simp [hall f hf]
          simpa using hni
        have ho : ineq = none := hb hfalse
        rw [ho] at hso
        exact hso.symm
      · intro f hf hop
        obtain ⟨v, hv⟩ := Option.isSome_iff_exists.mp (hwl f hf).2
        have hbi : isIneqB f = true := (isIneqB_iff hv).mpr hop
        have ho : ineq = some (fieldOf f) := ha f hf hbi
        rw [ho] at hso
        exact hso.symm

/-- Witness for `query_sort_order`: an accepted list with an inequality
clause on `maxAttendees` sorts by `maxAttendees` then `name`. -/
theorem query_sort_order_witness :
    ((∀ f ∈ [({ field := "MAX_ATTENDEES", operator := "GT", value := "10" } :
        ConferenceQueryForm),
        { field := "CITY", operator := "EQ", value := "London" }],
      f.operator = "EQ") →
      ["maxAttendees", "name"] = ["name"]) ∧
    (∀ f ∈ [({ field := "MAX_ATTENDEES", operator := "GT", value := "10" } :
        ConferenceQueryForm),
        { field := "CITY", operator := "EQ", value := "London" }],
      f.operator ≠ "EQ" → ["maxAttendees", "name"] = [fieldOf f, "name"]) :=
  query_sort_order
    [{ field := "MAX_ATTENDEES", operator := "GT", value := "10" },
     { field := "CITY", operator := "EQ", value := "London" }]
    ["maxAttendees", "name"]
    [{ field := "maxAttendees", operator := ">", value := FilterValue.intVal 10 },
     { field := "city", operator := "=", value := FilterValue.strVal "London" }]
    (by decide)

/-- The coercion loop either succeeds or reports the value error. -/
theorem coerceFilters_ok_or_err (fs : List Filtr) :
    (∃ nodes, coerceFilters fs = Except.ok nodes) ∨
      coerceFilters fs = Except.error ApiError.valueError := by
  induction fs with
  | nil => exact Or.inl ⟨[], rfl⟩
  | cons f rest ih =>
    by_cases hnum : f.field = "month" ∨ f.field = "maxAttendees"
    · cases hpi : pyInt f.value with
      | none =>
        simp [coerceFilters, if_pos hnum, hpi]
      | some n =>
        simp only [coerceFilters, if_pos hnum, hpi]
        rcases ih with ⟨nodes, hok⟩ | herr
        · rw [hok]
          exact Or.inl ⟨_, rfl⟩
        · rw [herr]
          exact Or.inr rfl
    · simp only [coerceFilters, if_neg hnum]
      rcases ih with ⟨nodes, hok⟩ | herr
      · rw [hok]
        exact Or.inl ⟨_, rfl⟩
      · rw [herr]
        exact Or.inr rfl

/-- The coercion loop succeeds exactly when every numeric-field clause
has an `int(...)`-coercible value. -/
theorem coerceFilters_ok_iff (fs : List Filtr) :
    (∃ nodes, coerceFilters fs = Except.ok nodes) ↔
      ∀ f ∈ fs, (f.field = "month" ∨ f.field = "maxAttendees") →
        (pyInt f.value).isSome := by
  induction fs with
  | nil => simp [coerceFilters]
  | cons f rest ih =>
    by_cases hnum : f.field = "month" ∨ f.field = "maxAttendees"
    · cases hpi : pyInt f.value with
      | none =>
        simp only [coerceFilters, if_pos hnum, hpi]
        constructor
        · rintro ⟨nodes, hbad⟩
          exact Except.noConfusion hbad
        · intro hall
          have := hall f (List.mem_cons_self f rest) hnum
          rw [hpi] at this
          cases this
      | some n =>
        simp only [coerceFilters, if_pos hnum, hpi]
        cases hrec : coerceFilters rest with
        | ok nds =>
          simp only [Except.ok.injEq]
          constructor
          · intro _
            intro g hg hgn
            cases hg with
            | head =>
              rw [hpi]
              rfl
            | tail _ hg2 => exact (ih.mp ⟨nds, hrec⟩) g hg2 hgn
          · intro _
            exact ⟨_, rfl⟩
        | error e =>
          constructor
          · rintro ⟨nodes, hbad⟩
            exact Except.noConfusion hbad
          · intro hall
            have hok := ih.mpr fun g hg hgn => hall g (List.mem_cons_of_mem f hg) hgn
            obtain ⟨nds, hok⟩ := hok
            rw [hrec] at hok
            exact Except.noConfusion hok
    · simp only [coerceFilters, if_neg hnum]
      cases hrec : coerceFilters rest with
      | ok nds =>
        constructor
        · intro _
          intro g hg hgn
          cases hg with
          | head => exact absurd hgn hnum
          | tail _ hg2 => exact (ih.mp ⟨nds, hrec⟩) g hg2 hgn
        · intro _
          exact ⟨_, rfl⟩
      | error e =>
        constructor
        · rintro ⟨nodes, hbad⟩
          exact Except.noConfusion hbad
        · intro hall
          have hok := ih.mpr fun g hg hgn => hall g (List.mem_cons_of_mem f hg) hgn
          obtain ⟨nds, hok⟩ := hok
          rw [hrec] at hok
          exact Except.noConfusion hok

/-- Every numeric-field clause of a successfully coerced list contributes
a `FilterNode` carrying its integer-coerced value. -/
theorem coerceFilters_mem (fs : List Filtr) (nodes : List FilterNode)
    (h : coerceFilters fs = Except.ok nodes) :
    ∀ f ∈ fs, (f.field = "month" ∨ f.field = "maxAttendees") →
      ∃ n, pyInt f.value = some n ∧
        ({ field := f.field, operator := f.operator,
           value := FilterValue.intVal n } : FilterNode) ∈ nodes := by
  induction fs generalizing nodes with
  | nil =>
    intro f hf
    cases hf
  | cons f rest ih =>
    intro g hg hgn
    by_cases hnum : f.field = "month" ∨ f.field = "maxAttendees"
    · cases hpi : pyInt f.value with
      | none =>
        simp only [coerceFilters, if_pos hnum, hpi] at h
        exact Except.noConfusion h
      | some n =>
        simp only [coerceFilters, if_pos hnum, hpi] at h
        cases hrec : coerceFilters rest with
        | ok nds =>
          rw [hrec] at h
          simp only [Except.ok.injEq] at h
          subst h
          cases hg with
          | head => exact ⟨n, hpi, List.mem_cons_self _ _⟩
          | tail _ hg2 =>
            obtain ⟨m, hm, hmem⟩ := ih nds hrec g hg2 hgn
            exact ⟨m, hm, List.mem_cons_of_mem _ hmem⟩
        | error e =>
          rw [hrec] at h
          exact Except.noConfusion h
    · simp only [coerceFilters, if_neg hnum] at h
      cases hrec : coerceFilters rest with
      | ok nds =>
        rw [hrec] at h
        simp only [Except.ok.injEq] at h
        subst h
        cases hg with
        | head => exact absurd hgn hnum
        | tail _ hg2 =>
          obtain ⟨m, hm, hmem⟩ := ih nds hrec g hg2 hgn
          exact ⟨m, hm, List.mem_cons_of_mem _ hmem⟩
      | error e =>
        rw [hrec] at h
        exact Except.noConfusion h

/-- C8. Numeric filter coercion: the values of clauses on `month` or
`maxAttendees` are coerced with `int(...)` before the query is built
(each resulting `FilterNode` carries the integer), and the whole
operation fails with the value error exactly when some numeric clause's
value is not coercible. -/
theorem numeric_filter_coercion (filters : List ConferenceQueryForm)
    (ineq : Option String) (fs : List Filtr)
    (h : formatFilters filters = Except.ok (ineq, fs)) :
    (getQuery filters = Except.error ApiError.valueError ↔
      ∃ f ∈ fs, (f.field = "month" ∨ f.field = "maxAttendees") ∧
        pyInt f.value = none) ∧
    (∀ so nodes, getQuery filters = Except.ok (so, nodes) →
      ∀ f ∈ fs, (f.field = "month" ∨ f.field = "maxAttendees") →
        ∃ n, pyInt f.value = some n ∧
          ({ field := f.field, operator := f.operator,
             value := FilterValue.intVal n } : FilterNode) ∈ nodes) := by
  constructor
  · unfold getQuery
    rw [h]
    simp only []
    rcases coerceFilters_ok_or_err fs with ⟨nds, hok⟩ | herr
    · rw [hok]
      have hall := (coerceFilters_ok_iff fs).mp ⟨nds, hok⟩
      constructor
      · intro hbad
        exact absurd hbad (by simp)
      · rintro ⟨f, hf, hnum, hpi⟩
        have := hall f hf hnum
        rw [hpi] at this
        cases this
    · rw [herr]
      have hbad : ¬ ∀ f ∈ fs, (f.field = "month" ∨ f.field = "maxAttendees") →
          (pyInt f.value).isSome := by
        intro hall
        obtain ⟨nds, hok⟩ := (coerceFilters_ok_iff fs).mpr hall
        rw [herr] at hok
        exact Except.noConfusion hok
      push_neg at hbad
      obtain ⟨f, hf, hnum, hpi⟩ := hbad
      simp only [Option.not_isSome_iff_eq_none] at hpi
      constructor
      · intro _
        exact ⟨f, hf, hnum, hpi⟩
      · intro _
        rfl
  · intro so nodes hok f hf hnum
    unfold getQuery at hok
    rw [h] at hok
    simp only [] at hok
    cases hcf : coerceFilters fs with
    | error e =>
      rw [hcf] at hok
      exact Except.noConfusion hok
    | ok nds =>
      rw [hcf] at hok
      simp only [Except.ok.injEq, Prod.mk.injEq] at hok
      obtain ⟨_hso, hnodes⟩ := hok
      obtain ⟨n, hn, hmem⟩ := coerceFilters_mem fs nds hcf f hf hnum
      exact ⟨n, hn, hnodes ▸ hmem⟩

/-- Witness for `numeric_filter_coercion` on a concrete accepted filter
list with a numeric clause. -/
theorem numeric_filter_coercion_witness :
    ((getQuery [({ field := "MONTH", operator := "EQ", value := "6" } :
        ConferenceQueryForm)] = Except.error ApiError.valueError ↔
      ∃ f ∈ [({ field := "month", operator := "=", value := "6" } : Filtr)],
        (f.field = "month" ∨ f.field = "maxAttendees") ∧
          pyInt f.value = none) ∧
    (∀ so nodes,
      getQuery [({ field := "MONTH", operator := "EQ", value := "6" } :
          ConferenceQueryForm)] = Except.ok (so, nodes) →
      ∀ f ∈ [({ field := "month", operator := "=", value := "6" } : Filtr)],
        (f.field = "month" ∨ f.field = "maxAttendees") →
        ∃ n, pyInt f.value = some n ∧
          ({ field := f.field, operator := f.operator,
             value := FilterValue.intVal n } : FilterNode) ∈ nodes)) :=
  numeric_filter_coercion
    [{ field := "MONTH", operator := "EQ", value := "6" }]
    none [{ field := "month", operator := "=", value := "6" }]
    (by decide)

/-! Conference creation: date handling. -/

/-- An optional date field parses to "absent" exactly when it is falsy. -/
theorem pyParseOptDate_ok_none_iff (v : Option String) :
    pyParseOptDate v = Except.ok none ↔ strTruthy v = false := by
  cases v with
  | none => simp [pyParseOptDate, strTruthy]
  | some s =>
    by_cases hs : s = ""
    · simp [pyParseOptDate, strTruthy, hs]
    · simp only [pyParseOptDate, strTruthy, if_neg hs]
      cases hp : strptimeDate (pyTake 10 s) <;> simp [hp, hs]

/-- An optional date field parses to a date exactly when its first ten
characters parse with `strptime`. -/
theorem pyParseOptDate_ok_some_iff (v : Option String) (d : Date) :
    pyParseOptDate v = Except.ok (some d) ↔
      ∃ s, v = some s ∧ s ≠ "" ∧ strptimeDate (pyTake 10 s) = some d := by
  cases v with
  | none => simp [pyParseOptDate]
  | some s =>
    by_cases hs : s = ""
    · simp [pyParseOptDate, hs]
    · simp only [pyParseOptDate, if_neg hs]
      cases hp : strptimeDate (pyTake 10 s) <;> simp [hp, hs]

/-- An optional date field raises exactly when it is truthy and its first
ten characters do not parse. -/
theorem pyParseOptDate_err_iff (v : Option String) :
    pyParseOptDate v = Except.error ApiError.valueError ↔
      ∃ s, v = some s ∧ s ≠ "" ∧ strptimeDate (pyTake 10 s) = none := by
  cases v with
  | none => simp [pyParseOptDate]
  | some s =>
    by_cases hs : s = ""
    · simp [pyParseOptDate, hs]
    · simp only [pyParseOptDate, if_neg hs]
      cases hp : strptimeDate (pyTake 10 s) <;> simp [hp, hs]

/-- The only error an optional date field can raise is the value error. -/
theorem pyParseOptDate_err_unique {v : Option String} {e : ApiError}
    (h : pyParseOptDate v = Except.error e) : e = ApiError.valueError := by
  cases v with
  | none => simp [pyParseOptDate] at h
  | some s =>
    by_cases hs : s = ""
    · simp [pyParseOptDate, hs] at h
    · simp only [pyParseOptDate, if_neg hs] at h
      cases hp : strptimeDate (pyTake 10 s) <;> rw [hp] at h <;> simp at h
      exact h.symm

/-- An optional date field parses without error exactly when a truthy
value has parseable first ten characters. -/
theorem pyParseOptDate_isOk_iff (v : Option String) :
    (∃ x, pyParseOptDate v = Except.ok x) ↔
      (∀ s, v = some s → s ≠ "" → (strptimeDate (pyTake 10 s)).isSome) := by
  cases v with
  | none => simp [pyParseOptDate]
  | some s =>
    by_cases hs : s = ""
    · simp [pyParseOptDate, hs]
    · simp only [pyParseOptDate, if_neg hs]
      cases hp : strptimeDate (pyTake 10 s) <;> simp [hp, hs]

/-- What a successful conference creation says about the date fields:
both parsed without error, and `month` is the parsed start month or 0. -/
theorem createConferenceObject_ok_dates (u : User) (req : ConferenceForm)
    (conf : Conference)
    (h : createConferenceObject (some u) req = Except.ok conf) :
    pyParseOptDate req.startDate = Except.ok conf.startDate ∧
    pyParseOptDate req.endDate = Except.ok conf.endDate ∧
    conf.month = (match conf.startDate with
      | some d => d.month
      | none => 0) := by
  simp only [createConferenceObject] at h
  by_cases hn : strTruthy req.name = false
  · rw [if_pos hn] at h
    exact Except.noConfusion h
  · rw [if_neg hn] at h
    cases hSp : pyParseOptDate req.startDate with
    | error e =>
      rw [hSp] at h
      exact Except.noConfusion h
    | ok sd =>
      rw [hSp] at h
      cases hEp : pyParseOptDate req.endDate with
      | error e =>
        rw [hEp] at h
        exact Except.noConfusion h
      | ok ed =>
        rw [hEp] at h
        simp only [Except.ok.injEq] at h
        subst h
        exact ⟨rfl, rfl, rfl⟩

/-- Where the value error of conference creation comes from: the start
date fails to parse, or it parses and the end date fails. -/
theorem createConferenceObject_valueError_iff (u : User) (req : ConferenceForm)
    (hname : strTruthy req.name = true) :
    (createConferenceObject (some u) req = Except.error ApiError.valueError ↔
      pyParseOptDate req.startDate = Except.error ApiError.valueError ∨
      ((∃ x, pyParseOptDate req.startDate = Except.ok x) ∧
        pyParseOptDate req.endDate = Except.error ApiError.valueError)) := by
  simp only [createConferenceObject]
  rw [if_neg (by simp [hname])]
  cases hSp : pyParseOptDate req.startDate with
  | error e =>
    have he := pyParseOptDate_err_unique hSp
    subst he
    simp [hSp]
  | ok sd =>
    cases hEp : pyParseOptDate req.endDate with
    | error e =>
      have he := pyParseOptDate_err_unique hEp
      subst he
      simp [hSp, hEp]
    | ok ed =>
      simp [hSp, hEp]

/-- C9 counterexample: the claim demands failure (`InvalidDate`) for
every supplied `startDate` string that does not parse as `YYYY-MM-DD`,
but `"2020-05-01T00:00:00"` does not parse as a whole (`strptime` rejects
unconverted trailing data) while `createConference` succeeds, because the
code parses only the first ten characters (`data['startDate'][:10]`). -/
theorem create_conference_date_claim_counterexample :
    ¬ (∀ (u : User) (req : ConferenceForm) (s : String),
        req.startDate = some s → s ≠ "" → strptimeDate s = none →
        ∃ e, createConferenceObject (some u) req = Except.error e) := by
  intro h
  obtain ⟨e, he⟩ := h sampleOrganizer truncCreateReq ("2020-05-01T00:00:00")
    (by rfl) (by decide) (by decide)
  rw [show createConferenceObject (some sampleOrganizer) truncCreateReq =
      Except.ok truncConf from by decide] at he
  exact Except.noConfusion he

/-- C9 as amended: `createConference` parses `startDate` and `endDate`
from the first ten characters of the supplied strings in `YYYY-MM-DD`
format, fails with the value error (the spec's InvalidDate) exactly when
a truthy date string's ten-character prefix does not parse, and sets
`month` to the parsed start date's month, or 0 when `startDate` is
absent. -/
theorem create_conference_date_handling (u : User) (req : ConferenceForm)
    (hname : strTruthy req.name = true) :
    (createConferenceObject (some u) req = Except.error ApiError.valueError ↔
      (∃ s, req.startDate = some s ∧ s ≠ "" ∧
        strptimeDate (pyTake 10 s) = none) ∨
      ((∀ s, req.startDate = some s → s ≠ "" →
          (strptimeDate (pyTake 10 s)).isSome) ∧
        ∃ s, req.endDate = some s ∧ s ≠ "" ∧
          strptimeDate (pyTake 10 s) = none)) ∧
    (∀ conf, createConferenceObject (some u) req = Except.ok conf →
      ((strTruthy req.startDate = false ∧ conf.startDate = none ∧
          conf.month = 0) ∨
       (∃ s d, req.startDate = some s ∧ strptimeDate (pyTake 10 s) = some d ∧
          conf.startDate = some d ∧ conf.month = d.month)) ∧
      ((strTruthy req.endDate = false ∧ conf.endDate = none) ∨
       (∃ s d, req.endDate = some s ∧ strptimeDate (pyTake 10 s) = some d ∧
          conf.endDate = some d))) := by
  constructor
  · rw [createConferenceObject_valueError_iff u req hname,
      pyParseOptDate_err_iff, pyParseOptDate_err_iff, pyParseOptDate_isOk_iff]
  · intro conf hok
    obtain ⟨hS, hE, hM⟩ := createConferenceObject_ok_dates u req conf hok
    constructor
    · cases hsd : conf.startDate with
      | none =>
        rw [hsd] at hS hM
        exact Or.inl ⟨(pyParseOptDate_ok_none_iff _).mp hS, rfl, by simpa using hM⟩
      | some d =>
        rw [hsd] at hS hM
        obtain ⟨s, hs1, _hs2, hs3⟩ := (pyParseOptDate_ok_some_iff _ _).mp hS
        exact Or.inr ⟨s, d, hs1, hs3, rfl, by simpa using hM⟩
    · cases hed : conf.endDate with
      | none =>
        rw [hed] at hE
        exact Or.inl ⟨(pyParseOptDate_ok_none_iff _).mp hE, rfl⟩
      | some d =>
        rw [hed] at hE
        obtain ⟨s, hs1, _hs2, hs3⟩ := (pyParseOptDate_ok_some_iff _ _).mp hE
        exact Or.inr ⟨s, d, hs1, hs3, rfl⟩

/-- Witness for `create_conference_date_handling` on a request with a
leap-day start date. -/
theorem create_conference_date_handling_witness :
    strTruthy dateCreateReq.name = true ∧
    ((createConferenceObject (some sampleOrganizer) dateCreateReq =
        Except.error ApiError.valueError ↔
      (∃ s, dateCreateReq.startDate = some s ∧ s ≠ "" ∧
        strptimeDate (pyTake 10 s) = none) ∨
      ((∀ s, dateCreateReq.startDate = some s → s ≠ "" →
          (strptimeDate (pyTake 10 s)).isSome) ∧
        ∃ s, dateCreateReq.endDate = some s ∧ s ≠ "" ∧
          strptimeDate (pyTake 10 s) = none)) ∧
    (∀ conf, createConferenceObject (some sampleOrganizer) dateCreateReq =
        Except.ok conf →
      ((strTruthy dateCreateReq.startDate = false ∧ conf.startDate = none ∧
          conf.month = 0) ∨
       (∃ s d, dateCreateReq.startDate = some s ∧
          strptimeDate (pyTake 10 s) = some d ∧
          conf.startDate = some d ∧ conf.month = d.month)) ∧
      ((strTruthy dateCreateReq.endDate = false ∧ conf.endDate = none) ∨
       (∃ s d, dateCreateReq.endDate = some s ∧
          strptimeDate (pyTake 10 s) = some d ∧
          conf.endDate = some d)))) :=
  ⟨by decide,
   create_conference_date_handling sampleOrganizer dateCreateReq (by decide)⟩

/-! Seat invariant: counting and store-update lemmas. -/

/-- Membership in a put result comes from the new record or the table. -/
theorem mem_putProfile {l : List Profile} {q p : Profile}
    (h : p ∈ putProfile l q) : p = q ∨ p ∈ l := by
  induction l with
  | nil =>
    simp only [putProfile] at h
    cases h with
    | head => exact Or.inl rfl
    | tail _ h2 => cases h2
  | cons r rest ih =>
    simp only [putProfile] at h
    by_cases hr : r.userId = q.userId
    · rw [if_pos hr] at h
      cases h with
      | head => exact Or.inl rfl
      | tail _ h2 => exact Or.inr (List.mem_cons_of_mem _ h2)
    · rw [if_neg hr] at h
      cases h with
      | head => exact Or.inr (List.mem_cons_self _ _)
      | tail _ h2 =>
        rcases ih h2 with h3 | h3
        · exact Or.inl h3
        · exact Or.inr (List.mem_cons_of_mem _ h3)

/-- Replacing the record that lookup finds keeps the id column. -/
theorem map_userId_putProfile {l : List Profile} {uid : String} {p0 q : Profile}
    (hfind : findProfile l uid = some p0) (huid : q.userId = uid) :
    (putProfile l q).map Profile.userId = l.map Profile.userId := by
  induction l with
  | nil => simp [findProfile] at hfind
  | cons r rest ih =>
    by_cases hr : r.userId = uid
    · have hq : r.userId = q.userId := by rw [huid, hr]
      simp [putProfile, hq, huid, hr]
    · have hfind' : findProfile rest uid = some p0 := by
        simpa [findProfile, hr] using hfind
      have hq : ¬ r.userId = q.userId := by rw [huid]; exact hr
      simp [putProfile, hq, ih hfind']

/-- How replacing one profile changes a conference's registration count:
subtract the replaced record's membership, add the new one's. -/
theorem countRegistered_putProfile {l : List Profile} {uid : String}
    {p0 q : Profile} (hfind : findProfile l uid = some p0)
    (huid : q.userId = uid) (k : String) :
    (countRegistered (putProfile l q) k : Int) =
      (countRegistered l k : Int) -
        (if k ∈ p0.conferenceKeysToAttend then 1 else 0) +
        (if k ∈ q.conferenceKeysToAttend then 1 else 0) := by
  induction l with
  | nil => simp [findProfile] at hfind
  | cons r rest ih =>
    by_cases hr : r.userId = uid
    · have hp0 : r = p0 := by simpa [findProfile, hr] using hfind
      subst hp0
      have hq : r.userId = q.userId := by rw [huid, hr]
      simp only [putProfile, if_pos hq, countRegistered, List.countP_cons,
        decide_eq_true_eq]
      push_cast
      omega
    · have hfind' : findProfile rest uid = some p0 := by
        simpa [findProfile, hr] using hfind
      have hq : ¬ r.userId = q.userId := by rw [huid]; exact hr
      simp only [putProfile, if_neg hq, countRegistered, List.countP_cons,
        decide_eq_true_eq]
      have ih' := ih hfind'
      simp only [countRegistered] at ih'
      push_cast
      omega

/-- Appending a profile adds its own membership to every count. -/
theorem countRegistered_append (l : List Profile) (p : Profile) (k : String) :
    countRegistered (l ++ [p]) k =
      countRegistered l k + (if k ∈ p.conferenceKeysToAttend then 1 else 0) := by
  simp [countRegistered, List.countP_append, List.countP_cons]

/-- A registered member witnesses a positive count. -/
theorem countRegistered_pos {l : List Profile} {p : Profile} {k : String}
    (hp : p ∈ l) (hk : k ∈ p.conferenceKeysToAttend) :
    1 ≤ countRegistered l k :=
  List.countP_pos_iff.mpr ⟨p, hp, by simp [hk]⟩

/-- A key registered by nobody has count zero. -/
theorem countRegistered_zero {l : List Profile} {k : String}
    (h : ∀ p ∈ l, k ∉ p.conferenceKeysToAttend) : countRegistered l k = 0 :=
  List.countP_eq_zero.mpr fun p hp => by simp [h p hp]

/-- Replacing the conference that lookup finds keeps the key column. -/
theorem map_fst_putConference {l : List (String × Conference)} {k : String}
    {c0 : Conference} (c : Conference) (hl : confLookup l k = some c0) :
    (putConference l k c).map Prod.fst = l.map Prod.fst := by
  induction l with
  | nil => simp [confLookup] at hl
  | cons x rest ih =>
    obtain ⟨k0, c0'⟩ := x
    by_cases hk : k = k0
    · subst hk
      simp [putConference]
    · have hl' : confLookup rest k = some c0 := by
        simpa [confLookup, hk] using hl
      have hk' : ¬ k0 = k := fun hh => hk hh.symm
      simp [putConference, hk', ih hl']

/-- Members of a conference put with distinct keys: the new pair, or an
old pair under a different key. -/
theorem mem_putConference_of {l : List (String × Conference)} {k : String}
    {c c0 : Conference} (hnd : (l.map Prod.fst).Nodup)
    (hl : confLookup l k = some c0) :
    ∀ kc ∈ putConference l k c, kc = (k, c) ∨ (kc ∈ l ∧ kc.1 ≠ k) := by
  induction l with
  | nil => simp [confLookup] at hl
  | cons x rest ih =>
    obtain ⟨k0, c0'⟩ := x
    by_cases hk : k = k0
    · subst hk
      intro kc hkc
      simp only [putConference, if_pos rfl] at hkc
      cases hkc with
      | head => exact Or.inl rfl
      | tail _ hmem =>
        right
        refine ⟨List.mem_cons_of_mem _ hmem, ?_⟩
        intro hfst
        have hin : kc.1 ∈ rest.map Prod.fst := List.mem_map.mpr ⟨kc, hmem, rfl⟩
        rw [hfst] at hin
        exact (List.nodup_cons.mp (by simpa using hnd)).1 hin
    · have hl' : confLookup rest k = some c0 := by
        simpa [confLookup, hk] using hl
      have hnd' : (rest.map Prod.fst).Nodup :=
        (List.nodup_cons.mp (by simpa using hnd)).2
      intro kc hkc
      simp only [putConference] at hkc
      rw [if_neg (fun hh => hk hh.symm)] at hkc
      cases hkc with
      | head =>
        exact Or.inr ⟨List.mem_cons_self _ _, fun hf => hk (by simp at hf; rw [hf])⟩
      | tail _ hmem =>
        rcases ih hnd' hl' kc hmem with h1 | ⟨h2, h3⟩
        · exact Or.inl h1
        · exact Or.inr ⟨List.mem_cons_of_mem _ h2, h3⟩

/-- The empty store is well formed. -/
theorem goodState_empty : GoodState emptyState := by
  refine ⟨by simp [emptyState], by simp [emptyState], ?_, ?_, ?_⟩ <;>
    intro p hp <;> simp [emptyState] at hp

/-- The profile fetch of a registration call preserves well-formedness,
leaves the conference table untouched, makes the returned profile
findable, and does not change any registration count. -/
theorem getProfileFromUser_good {s : DState} {u : User} {prof : Profile}
    {s1 : DState} (good : GoodState s)
    (h : getProfileFromUser s (some u) = Except.ok (prof, s1)) :
    GoodState s1 ∧ s1.conferences = s.conferences ∧
    findProfile s1.profiles prof.userId = some prof ∧
    (∀ k, countRegistered s1.profiles k = countRegistered s.profiles k) := by
  obtain ⟨hconf, huid, hfind, hexist⟩ := getProfileFromUser_spec h
  simp only [getProfileFromUser] at h
  cases hf : findProfile s.profiles u.userId with
  | some p =>
    rw [hf] at h
    cases h
    exact ⟨good, rfl, hfind, fun _ => rfl⟩
  | none =>
    rw [hf] at h
    cases h
    have hfr : findProfile s.profiles (freshProfile u).userId = none := hf
    have happ : putProfile s.profiles (freshProfile u) =
        s.profiles ++ [freshProfile u] := putProfile_append hfr
    obtain ⟨hk1, hk2, hk3, hk4, hk5⟩ := good
    have hnotin : u.userId ∉ s.profiles.map Profile.userId := by
      intro hin
      obtain ⟨p, hp, hpu⟩ := List.mem_map.mp hin
      exact findProfile_none hf p hp hpu
    have hcnt : ∀ k, countRegistered (s.profiles ++ [freshProfile u]) k =
        countRegistered s.profiles k := by
      intro k
      rw [countRegistered_append]
      simp [freshProfile]
    refine ⟨⟨by simpa using hk1, ?_, ?_, ?_, ?_⟩, rfl, hfind, by simpa [happ] using hcnt⟩
    · show ((putProfile s.profiles (freshProfile u)).map Profile.userId).Nodup
      rw [happ]
      simp only [List.map_append, List.map_cons, List.map_nil]
      rw [List.nodup_append]
      exact ⟨hk2, List.nodup_singleton _, by
        intro a ha hb
        simp only [freshProfile, List.mem_cons, List.not_mem_nil, or_false] at hb
        subst hb
        exact hnotin ha⟩
    · intro p hp
      rw [happ] at hp
      rcases List.mem_append.mp hp with hp2 | hp2
      · exact hk3 p hp2
      · simp only [List.mem_cons, List.not_mem_nil, or_false] at hp2
        subst hp2
        simp [freshProfile]
    · intro p hp
      rw [happ] at hp
      rcases List.mem_append.mp hp with hp2 | hp2
      · exact hk4 p hp2
      · simp only [List.mem_cons, List.not_mem_nil, or_false] at hp2
        subst hp2
        simp [freshProfile]
    · intro kc hkc
      have := hk5 kc hkc
      rw [show ({ s with profiles := putProfile s.profiles (freshProfile u) } :
          DState).profiles = putProfile s.profiles (freshProfile u) from rfl]
      rw [happ]
      rw [hcnt kc.1]
      exact this

/-- Core preservation lemma: writing back an updated `(profile,
conference)` pair produced by the registration transaction keeps the
store well formed, provided the profile update is local to the touched
key and the seat change matches the membership change. -/
theorem goodState_touch (s1 : DState) (prof prof2 : Profile)
    (conf conf2 : Conference) (wsck : String)
    (good1 : GoodState s1)
    (hfind1 : findProfile s1.profiles prof.userId = some prof)
    (hcl : confLookup s1.conferences wsck = some conf)
    (huid : prof2.userId = prof.userId)
    (hmax : conf2.maxAttendees = conf.maxAttendees)
    (hknodup : prof2.conferenceKeysToAttend.Nodup)
    (hkeysub : ∀ k ∈ prof2.conferenceKeysToAttend, k ∈ s1.conferences.map Prod.fst)
    (hother : ∀ k, k ≠ wsck →
      (k ∈ prof2.conferenceKeysToAttend ↔ k ∈ prof.conferenceKeysToAttend))
    (hdelta : (conf2.seatsAvailable : Int) = conf.seatsAvailable -
      ((if wsck ∈ prof2.conferenceKeysToAttend then 1 else 0) -
       (if wsck ∈ prof.conferenceKeysToAttend then 1 else 0)))
    (hlow : 0 ≤ conf2.seatsAvailable) :
    GoodState { profiles := putProfile s1.profiles prof2,
                conferences := putConference s1.conferences wsck conf2 } := by
  obtain ⟨hk1, hk2, hk3, hk4, hk5⟩ := good1
  have hkeys : (putConference s1.conferences wsck conf2).map Prod.fst =
      s1.conferences.map Prod.fst := map_fst_putConference conf2 hcl
  have hids : (putProfile s1.profiles prof2).map Profile.userId =
      s1.profiles.map Profile.userId := map_userId_putProfile hfind1 huid
  have hcnt : ∀ k, (countRegistered (putProfile s1.profiles prof2) k : Int) =
      (countRegistered s1.profiles k : Int) -
        (if k ∈ prof.conferenceKeysToAttend then 1 else 0) +
        (if k ∈ prof2.conferenceKeysToAttend then 1 else 0) :=
    fun k => countRegistered_putProfile hfind1 huid k
  have hinvA : conf.seatsAvailable = conf.maxAttendees -
      (countRegistered s1.profiles wsck : Int) :=
    (hk5 (wsck, conf) (confLookup_mem hcl)).1
  have hinvB : 0 ≤ conf.seatsAvailable :=
    (hk5 (wsck, conf) (confLookup_mem hcl)).2.1
  have hinvC : conf.seatsAvailable ≤ conf.maxAttendees :=
    (hk5 (wsck, conf) (confLookup_mem hcl)).2.2
  refine ⟨by rw [hkeys]; exact hk1, by rw [hids]; exact hk2, ?_, ?_, ?_⟩
  · intro p hp
    rcases mem_putProfile hp with rfl | hp2
    · exact hknodup
    · exact hk3 p hp2
  · intro p hp k hk
    show k ∈ (putConference s1.conferences wsck conf2).map Prod.fst
    rw [hkeys]
    rcases mem_putProfile hp with rfl | hp2
    · exact hkeysub k hk
    · exact hk4 p hp2 k hk
  · intro kc hkc
    rcases mem_putConference_of hk1 hcl kc hkc with rfl | ⟨hmem, hne⟩
    · have h1 := hcnt wsck
      have h3 : (0 : Int) ≤
          (countRegistered (putProfile s1.profiles prof2) wsck : Int) :=
        Int.natCast_nonneg _
      have hseq : conf2.seatsAvailable = conf2.maxAttendees -
          (countRegistered (putProfile s1.profiles prof2) wsck : Int) := by
        rw [hmax]
        by_cases hm2 : wsck ∈ prof2.conferenceKeysToAttend <;>
          by_cases hm1 : wsck ∈ prof.conferenceKeysToAttend <;>
            simp [hm1, hm2] at h1 hdelta <;> omega
      refine ⟨hseq, hlow, ?_⟩
      show conf2.seatsAvailable ≤ conf2.maxAttendees
      rw [hseq, hmax]
      omega
    · have hold := hk5 kc hmem
      have h1 := hcnt kc.1
      have heq : (if kc.1 ∈ prof.conferenceKeysToAttend then (1 : Int) else 0) =
          (if kc.1 ∈ prof2.conferenceKeysToAttend then (1 : Int) else 0) := by
        have hoth := hother kc.1 hne
        simp [hoth]
      have hccc : (countRegistered (putProfile s1.profiles prof2) kc.1 : Int) =
          (countRegistered s1.profiles kc.1 : Int) := by
        rw [h1, heq]
        ring
      refine ⟨?_, hold.2.1, hold.2.2⟩
      show kc.2.seatsAvailable = kc.2.maxAttendees -
        (countRegistered (putProfile s1.profiles prof2) kc.1 : Int)
      rw [hccc]
      exact hold.1

/-- A successful state-level creation decomposes into a successful record
build and an append under the fresh key. -/
theorem createConferenceState_ok {s : DState} {u : Option User}
    {req : ConferenceForm} {key : String} {s' : DState}
    (h : createConferenceState s u req key = Except.ok s') :
    ∃ conf, createConferenceObject u req = Except.ok conf ∧
      s' = { s with conferences := s.conferences ++ [(key, conf)] } := by
  unfold createConferenceState at h
  cases hc : createConferenceObject u req with
  | error e =>
    rw [hc] at h
    exact Except.noConfusion h
  | ok conf =>
    rw [hc] at h
    simp only [Except.ok.injEq] at h
    exact ⟨conf, rfl, h.symm⟩

/-- A conference created from a `GoodCreateReq` request starts with
`seatsAvailable = maxAttendees ≥ 0`. -/
theorem createConferenceObject_good (u : User) (req : ConferenceForm)
    (conf : Conference)
    (h : createConferenceObject (some u) req = Except.ok conf)
    (hg : GoodCreateReq req) :
    conf.seatsAvailable = conf.maxAttendees ∧ 0 ≤ conf.maxAttendees := by
  simp only [createConferenceObject] at h
  by_cases hn : strTruthy req.name = false
  · rw [if_pos hn] at h
    exact Except.noConfusion h
  · rw [if_neg hn] at h
    cases hSp : pyParseOptDate req.startDate with
    | error e =>
      rw [hSp] at h
      exact Except.noConfusion h
    | ok sd =>
      rw [hSp] at h
      cases hEp : pyParseOptDate req.endDate with
      | error e =>
        rw [hEp] at h
        exact Except.noConfusion h
      | ok ed =>
        rw [hEp] at h
        simp only [Except.ok.injEq] at h
        subst h
        unfold GoodCreateReq at hg
        cases hma : req.maxAttendees with
        | none =>
          rw [hma] at hg
          simp only [Option.getD_none] at hg
          rcases hg with hpos | ⟨_, hseats⟩
          · exact absurd hpos (by norm_num)
          · cases hsa : req.seatsAvailable with
            | none => simp [hma, hsa]
            | some v =>
              rw [hsa] at hseats
              simp only [Option.getD_some] at hseats
              simp [hma, hsa, hseats]
        | some m =>
          rw [hma] at hg
          simp only [Option.getD_some] at hg
          rcases hg with hpos | ⟨hzero, hseats⟩
          · constructor
            · simp [hma, hpos]
            · simp only [hma]
              omega
          · subst hzero
            cases hsa : req.seatsAvailable with
            | none => simp [hma, hsa]
            | some v =>
              rw [hsa] at hseats
              simp only [Option.getD_some] at hseats
              simp [hma, hsa, hseats]

/-- Completed registration and unregistration calls keep the store well
formed. -/
theorem regState_good {s : DState} {u : User} {wsck : String} {reg : Bool}
    {s' : DState} {b : Bool} (good : GoodState s)
    (h : conferenceRegistrationState s (some u) wsck reg = Except.ok (s', b)) :
    GoodState s' := by
  simp only [conferenceRegistrationState] at h
  cases hgp : getProfileFromUser s (some u) with
  | error e =>
    rw [hgp] at h
    exact Except.noConfusion h
  | ok ps =>
    obtain ⟨prof, s1⟩ := ps
    rw [hgp] at h
    simp only [] at h
    obtain ⟨good1, _hconfeq, hfind1, _hcnt⟩ := getProfileFromUser_good good hgp
    cases hcl : confLookup s1.conferences wsck with
    | none =>
      rw [hcl] at h
      exact Except.noConfusion h
    | some conf =>
      rw [hcl] at h
      simp only [] at h
      cases hreg : conferenceRegistration prof conf wsck reg with
      | error e =>
        rw [hreg] at h
        exact Except.noConfusion h
      | ok r =>
        obtain ⟨prof2, conf2, rv⟩ := r
        rw [hreg] at h
        simp only [] at h
        simp only [Except.ok.injEq, Prod.mk.injEq] at h
        obtain ⟨hs', _hb⟩ := h
        subst hs'
        have hprofmem : prof ∈ s1.profiles := findProfile_mem hfind1
        have hprofnodup : prof.conferenceKeysToAttend.Nodup :=
          good1.2.2.1 prof hprofmem
        have hprofkeys : ∀ k ∈ prof.conferenceKeysToAttend,
            k ∈ s1.conferences.map Prod.fst :=
          good1.2.2.2.1 prof hprofmem
        have hinv0 : 0 ≤ conf.seatsAvailable :=
          (good1.2.2.2.2 (wsck, conf) (confLookup_mem hcl)).2.1
        unfold conferenceRegistration at hreg
        cases reg with
        | true =>
          rw [if_pos rfl] at hreg
          by_cases hmem : wsck ∈ prof.conferenceKeysToAttend
          · rw [if_pos hmem] at hreg
            exact Except.noConfusion hreg
          · rw [if_neg hmem] at hreg
            by_cases hs0 : conf.seatsAvailable ≤ 0
            · rw [if_pos hs0] at hreg
              exact Except.noConfusion hreg
            · rw [if_neg hs0] at hreg
              simp only [Except.ok.injEq, Prod.mk.injEq] at hreg
              obtain ⟨hp2, hc2, _hrv⟩ := hreg
              subst hp2
              subst hc2
              apply goodState_touch s1 prof _ conf _ wsck good1 hfind1 hcl
              · rfl
              · rfl
              · rw [List.nodup_append]
                refine ⟨hprofnodup, List.nodup_singleton _, ?_⟩
                intro a ha hb
                simp only [List.mem_cons, List.not_mem_nil, or_false] at hb
                subst hb
                exact hmem ha
              · intro k hk
                rcases List.mem_append.mp hk with hk2 | hk2
                · exact hprofkeys k hk2
                · simp only [List.mem_cons, List.not_mem_nil, or_false] at hk2
                  subst hk2
                  exact confLookup_mem_keys hcl
              · intro k hkne
                simp [List.mem_append, hkne]
              · simp only [List.mem_append, List.mem_cons, List.not_mem_nil,
                  or_false, or_true, if_true, if_pos, hmem, if_neg, if_false]
                simp [hmem]
              · show 0 ≤ conf.seatsAvailable - 1
                omega
        | false =>
          rw [if_neg (by simp)] at hreg
          by_cases hmem : wsck ∈ prof.conferenceKeysToAttend
          · rw [if_pos hmem] at hreg
            simp only [Except.ok.injEq, Prod.mk.injEq] at hreg
            obtain ⟨hp2, hc2, _hrv⟩ := hreg
            subst hp2
            subst hc2
            apply goodState_touch s1 prof _ conf _ wsck good1 hfind1 hcl
            · rfl
            · rfl
            · exact hprofnodup.erase _
            · intro k hk
              exact hprofkeys k (List.erase_subset _ _ hk)
            · intro k hkne
              exact List.mem_erase_of_ne hkne
            · have hnotin : wsck ∉ prof.conferenceKeysToAttend.erase wsck :=
                hprofnodup.not_mem_erase
              simp [hnotin, hmem]
            · show 0 ≤ conf.seatsAvailable + 1
              omega
          · rw [if_neg hmem] at hreg
            simp only [Except.ok.injEq, Prod.mk.injEq] at hreg
            obtain ⟨hp2, hc2, _hrv⟩ := hreg
            subst hp2
            subst hc2
            apply goodState_touch s1 prof _ conf _ wsck good1 hfind1 hcl
            · rfl
            · rfl
            · exact hprofnodup
            · exact hprofkeys
            · intro k _hkne
              exact Iff.rfl
            · simp
            · exact hinv0

/-- One completed API call preserves store well-formedness (under the
amended creation restriction). -/
theorem step_preserves_good {s s' : DState} (good : GoodState s)
    (hstep : Step GoodCreateReq s s') : GoodState s' := by
  cases hstep with
  | createC u req key hP hfresh hcr =>
    obtain ⟨conf, hobj, rfl⟩ := createConferenceState_ok hcr
    obtain ⟨hseats, hmaxnn⟩ := createConferenceObject_good u req conf hobj hP
    obtain ⟨hk1, hk2, hk3, hk4, hk5⟩ := good
    refine ⟨?_, hk2, hk3, ?_, ?_⟩
    · simp only [List.map_append, List.map_cons, List.map_nil]
      rw [List.nodup_append]
      refine ⟨hk1, List.nodup_singleton _, ?_⟩
      intro a ha hb
      simp only [List.mem_cons, List.not_mem_nil, or_false] at hb
      subst hb
      exact hfresh ha
    · intro p hp k hk
      show k ∈ (s.conferences ++ [(key, conf)]).map Prod.fst
      rw [List.map_append]
      exact List.mem_append_left _ (hk4 p hp k hk)
    · intro kc hkc
      rcases List.mem_append.mp hkc with hkc2 | hkc2
      · exact hk5 kc hkc2
      · simp only [List.mem_cons, List.not_mem_nil, or_false] at hkc2
        subst hkc2
        have hzero : countRegistered s.profiles key = 0 := by
          apply countRegistered_zero
          intro p hp hkmem
          exact hfresh (hk4 p hp key hkmem)
        refine ⟨?_, ?_, ?_⟩
        · show conf.seatsAvailable = conf.maxAttendees -
            (countRegistered s.profiles key : Int)
          rw [hzero, hseats]
          simp
        · show 0 ≤ conf.seatsAvailable
          rw [hseats]
          exact hmaxnn
        · show conf.seatsAvailable ≤ conf.maxAttendees
          rw [hseats]
  | registerC u wsck b hr => exact regState_good good hr
  | unregisterC u wsck b hr => exact regState_good good hr
  | updateC u req wsck hupd =>
    simp only [updateConferenceObject] at hupd
    exact Except.noConfusion hupd

/-- Every state reachable under the amended creation restriction is well
formed. -/
theorem reachableGood_goodState {s : DState} (h : ReachableGood s) :
    GoodState s := by
  unfold ReachableGood at h
  induction h with
  | refl => exact goodState_empty
  | tail _ hstep ih => exact step_preserves_good ih hstep

/-- The seat deltas of the registration transaction body. -/
theorem registration_delta : RegistrationDeltaSpec := by
  constructor
  · intro prof conf wsck r h
    unfold conferenceRegistration at h
    rw [if_pos rfl] at h
    by_cases hmem : wsck ∈ prof.conferenceKeysToAttend
    · rw [if_pos hmem] at h
      exact Except.noConfusion h
    · rw [if_neg hmem] at h
      by_cases hs0 : conf.seatsAvailable ≤ 0
      · rw [if_pos hs0] at h
        exact Except.noConfusion h
      · rw [if_neg hs0] at h
        simp only [Except.ok.injEq] at h
        subst h
        exact ⟨rfl, rfl⟩
  · intro prof conf wsck r h
    unfold conferenceRegistration at h
    rw [if_neg (by simp)] at h
    by_cases hmem : wsck ∈ prof.conferenceKeysToAttend
    · rw [if_pos hmem] at h
      simp only [Except.ok.injEq] at h
      subst h
      exact Or.inl ⟨rfl, rfl⟩
    · rw [if_neg hmem] at h
      simp only [Except.ok.injEq] at h
      subst h
      exact Or.inr ⟨rfl, rfl, rfl⟩

/-- C1 counterexample: the claimed seat invariant fails on the code as
stated, because `createConference` only forces
`seatsAvailable = maxAttendees` when `maxAttendees > 0`; a request with
`maxAttendees` unset (defaulting to 0) and `seatsAvailable = 5` creates a
reachable conference record with `seatsAvailable = 5 > 0 = maxAttendees`
and no registered profiles. -/
theorem seat_invariant_claim_counterexample :
    ¬ (∀ s, ReachableAny s → SeatInvariant s) := by
  intro h
  have hbad : ¬ SeatInvariant badState := by decide
  apply hbad
  apply h
  exact Relation.ReflTransGen.single
    (Step.createC sampleOrganizer badCreateReq ("k1")
      trivial (by decide) (by decide))

/-- C1 as amended: restricted to sequences whose `createConference`
requests satisfy `GoodCreateReq` (positive `maxAttendees`, or default
`maxAttendees = 0` with no nonzero `seatsAvailable` supplied), every
reachable conference record satisfies
`seatsAvailable = maxAttendees - |registered profiles|` with
`0 ≤ seatsAvailable ≤ maxAttendees`; moreover successful registrations
and unregistrations change `seatsAvailable` by exactly 1, and the
unregistration no-op changes nothing (`updateConference` never mutates
any record, since every call of it raises before touching the store). -/
theorem seat_invariant_amended (s : DState) (h : ReachableGood s) :
    SeatInvariant s ∧ RegistrationDeltaSpec :=
  ⟨(reachableGood_goodState h).2.2.2.2, registration_delta⟩

/-- Witness for `seat_invariant_amended`: the store reached by creating a
two-seat conference and registering one attendee. -/
theorem seat_invariant_amended_witness :
    SeatInvariant stateB ∧ RegistrationDeltaSpec :=
  seat_invariant_amended stateB
    (Relation.ReflTransGen.tail
      (Relation.ReflTransGen.single
        (@Step.createC GoodCreateReq emptyState sampleOrganizer goodCreateReq
          ("k1") stateA (Or.inl (by decide)) (by decide) (by decide)))
      (@Step.registerC GoodCreateReq stateA sampleAttendee ("k1") stateB true
        (by decide)))

end ConferenceCentral
